import Mathlib

/-! Circuit-breaker filter and routing table of the gateway proxy
(`pkg/proxy/filter_circuit_breake.go`, `pkg/proxy/router.go`).

A shallow embedding of `CircuitBreakeFilter` (hooks `Pre`, `Post`, `PostErr`, the two rate
helpers and `limitAllow`) together with the properties of the breaker state machine, and of
the `dispatcher` (`dispatch`, `selectClusterByRouting`, `selectServer`, `doUnBind`,
`addAnalysis`) together with the properties of request resolution and of the reverse mapping.

Modelling conventions

* Go integers are Lean `Int` with the wrap-around of a 64-bit signed word made explicit
  (`wrapInt64`) where the code computes: the product `count * 100` and the quotient of the
  rate helpers.  Go's `/` on integers truncates toward zero, which is `Int.tdiv`.
* A Go run-time panic (nil dereference, integer division by zero) is the result `none`;
  a normal return is `some _`.  Code that is not under `src/` is modelled from the spec and
  said so in its doc comment.
* The filter works on a `filter.Context`; the only thing it ever writes is the breaker status,
  so a hook returns its Go result together with the context after the call.
* `rand.Intn(RateBase)` is an explicit argument `randValue` of the hooks that draw.
-/

namespace Proxy

/-! ## Data model -/

/-- Breaker status of a server (`model.Circuit`): serving, probation, blocking. -/
inductive Circuit
  | Open
  | Half
  | Close
  deriving DecidableEq

/-- Circuit-breaker policy of a server (`model.CircuitBreaker`); durations are Go
`time.Duration` values, percentages are Go `int`. -/
structure CircuitBreaker where
  OpenToCloseRate : Int
  OpenToClose : Int
  HalfToOpenRate : Int
  HalfToOpen : Int
  HalfTrafficRate : Int
  deriving DecidableEq

/-- Modelled from the spec: the sliding-window analyzer (`model.Analysis`, not under `src/`),
as the answers it gives "as of now" to the three count queries for a key and a window. -/
structure Analysis where
  GetRecentlyRequestFailureCount : String → Int → Int
  GetRecentlyRequestSuccessedCount : String → Int → Int
  GetRecentlyRequestCount : String → Int → Int

/-- Modelled from the spec: the request context (`filter.Context`, not under `src/`), reduced
to the capabilities the filter consumes: the policy of the destination server (`none` is Go's
nil), its current breaker status, the analyzer handle and the destination server's key. -/
structure Context where
  circuitBreaker : Option CircuitBreaker
  circuit : Circuit
  analysis : Analysis
  proxyServerAddr : String

namespace Context

/-- Accessor `c.GetCircuitBreaker()`. -/
def GetCircuitBreaker (c : Context) : Option CircuitBreaker := c.circuitBreaker

/-- Accessor `c.GetAnalysis()`. -/
def GetAnalysis (c : Context) : Analysis := c.analysis

/-- Accessor `c.GetProxyServerAddr()`. -/
def GetProxyServerAddr (c : Context) : String := c.proxyServerAddr

/-- Query `c.IsCircuitOpen()`. -/
def IsCircuitOpen (c : Context) : Bool := c.circuit == Circuit.Open

/-- Query `c.IsCircuitHalf()`. -/
def IsCircuitHalf (c : Context) : Bool := c.circuit == Circuit.Half

/-- Mutation `c.ChangeCircuitStatusToClose()`. -/
def ChangeCircuitStatusToClose (c : Context) : Context := { c with circuit := Circuit.Close }

/-- Mutation `c.ChangeCircuitStatusToOpen()`. -/
def ChangeCircuitStatusToOpen (c : Context) : Context := { c with circuit := Circuit.Open }

/-- Mutation `c.ChangeCircuitStatusToHalf()`: the promotion issued by the external
health checker; the filter never calls it. -/
def ChangeCircuitStatusToHalf (c : Context) : Context := { c with circuit := Circuit.Half }

end Context

/-- The three error values declared by the filter. -/
inductive FilterError
  | ErrCircuitClose
  | ErrCircuitHalf
  | ErrCircuitHalfLimited
  deriving DecidableEq

export FilterError (ErrCircuitClose ErrCircuitHalf ErrCircuitHalfLimited)

/-- Constant `RateBase`. -/
def RateBase : Nat := 100

/-- Constant `http.StatusOK`. -/
def StatusOK : Int := 200

/-- Constant `http.StatusServiceUnavailable`. -/
def StatusServiceUnavailable : Int := 503

/-- The Go result pair `(statusCode int, err error)`; `none` is the nil error. -/
abbrev HookResult := Int × Option FilterError

/-- The value a 64-bit signed Go integer holds after an arithmetic result `x`: `x` reduced
modulo `2^64` into the range from `-2^63` to `2^63 - 1`. -/
def wrapInt64 (x : Int) : Int :=
  (x + 9223372036854775808) % 18446744073709551616 - 9223372036854775808

/-- Go integer multiplication on 64-bit signed integers: the product wraps around. -/
def goMul (a b : Int) : Int :=
  wrapInt64 (a * b)

/-- Go integer division on 64-bit signed integers: panics on a zero divisor, truncates
toward zero otherwise. -/
def goDiv (a b : Int) : Option Int :=
  if b = 0 then none else some (wrapInt64 (Int.tdiv a b))

namespace BaseFilter

/-- Modelled from the spec: `filter.BaseFilter.Pre` (not under `src/`), the passthrough hook:
it lets the call through with no error. -/
def Pre (_c : Context) : HookResult := (StatusOK, none)

/-- Modelled from the spec: `filter.BaseFilter.Post` (not under `src/`), the passthrough hook:
it reports success with no error. -/
def Post (_c : Context) : HookResult := (StatusOK, none)

end BaseFilter

/-! ## The filter -/

/-- Function `limitAllow(rate)`, with the draw `randValue := rand.Intn(RateBase)` made an
argument. -/
def limitAllow (randValue : Nat) (rate : Int) : Bool :=
  decide ((randValue : Int) < rate)

namespace CircuitBreakeFilter

/-- Method `getFailureRate`: failure percentage over the `OpenToClose` window, `-1` when the
window holds no request. -/
def getFailureRate (c : Context) : Option Int :=
  match c.GetCircuitBreaker with
  | none => none
  | some cb =>
    let failureCount :=
      c.GetAnalysis.GetRecentlyRequestFailureCount c.GetProxyServerAddr cb.OpenToClose
    let totalCount := c.GetAnalysis.GetRecentlyRequestCount c.GetProxyServerAddr cb.OpenToClose
    if totalCount = 0 then some (-1)
    else goDiv (goMul failureCount 100) totalCount

/-- Method `getSucceedRate`: success percentage over the `OpenToClose` window, `100` when the
window holds no request. -/
def getSucceedRate (c : Context) : Option Int :=
  match c.GetCircuitBreaker with
  | none => none
  | some cb =>
    let succeedCount :=
      c.GetAnalysis.GetRecentlyRequestSuccessedCount c.GetProxyServerAddr cb.OpenToClose
    let totalCount := c.GetAnalysis.GetRecentlyRequestCount c.GetProxyServerAddr cb.OpenToClose
    if totalCount = 0 then some 100
    else goDiv (goMul succeedCount 100) totalCount

/-- Hook `Pre`: the gate before the call is forwarded. -/
def Pre (c : Context) (randValue : Nat) : Option (HookResult × Context) :=
  match c.GetCircuitBreaker with
  | none => some (BaseFilter.Pre c, c)
  | some cb =>
    if c.IsCircuitOpen then
      match getFailureRate c with
      | none => none
      | some rate =>
        if rate ≥ cb.OpenToCloseRate then
          some ((StatusServiceUnavailable, some ErrCircuitClose), c.ChangeCircuitStatusToClose)
        else
          some ((StatusOK, none), c)
    else if c.IsCircuitHalf then
      if limitAllow randValue cb.HalfTrafficRate then
        some (BaseFilter.Pre c, c)
      else
        some ((StatusServiceUnavailable, some ErrCircuitHalfLimited), c)
    else
      some ((StatusServiceUnavailable, some ErrCircuitClose), c)

/-- Hook `Post`: runs after the backend call returned. -/
def Post (c : Context) : Option (HookResult × Context) :=
  match c.GetCircuitBreaker with
  | none => some (BaseFilter.Pre c, c)
  | some cb =>
    if c.IsCircuitHalf then
      match getSucceedRate c with
      | none => none
      | some rate =>
        if rate ≥ cb.HalfToOpenRate then
          some (BaseFilter.Post c.ChangeCircuitStatusToOpen, c.ChangeCircuitStatusToOpen)
        else
          some (BaseFilter.Post c, c)
    else
      some (BaseFilter.Post c, c)

/-- Hook `PostErr`: runs after the backend call failed. -/
def PostErr (c : Context) : Context :=
  if c.IsCircuitHalf then c.ChangeCircuitStatusToClose else c

end CircuitBreakeFilter

/-! ## Sequences of hook calls -/

/-- One call of a hook of the filter on a server's context, with what the call reads from
its environment: the analyzer's answers at that moment and, for `Pre`, the random draw. -/
inductive Call
  | pre (analysis : Analysis) (randValue : Nat)
  | post (analysis : Analysis)
  | postErr

/-- The context after one hook call (`none` if the hook panics). -/
def applyCall (c : Context) : Call → Option Context
  | Call.pre a r => (CircuitBreakeFilter.Pre { c with analysis := a } r).map Prod.snd
  | Call.post a => (CircuitBreakeFilter.Post { c with analysis := a }).map Prod.snd
  | Call.postErr => some (CircuitBreakeFilter.PostErr c)

/-- The context after a finite sequence of hook calls, in order. -/
def runCalls (c : Context) : List Call → Option Context
  | [] => some c
  | call :: rest => (applyCall c call).bind (fun c' => runCalls c' rest)

/-! ## Reference quantities of the specification -/

/-- Failure rate as the specification words it: `floor(100*F/T)`, or `-1` when `T = 0`. -/
def specFailureRate (F T : Nat) : Int :=
  if T = 0 then -1 else ((100 * F / T : Nat) : Int)

/-- Success rate as the specification words it: `floor(100*S/T)`, or `100` when `T = 0`. -/
def specSucceedRate (S T : Nat) : Int :=
  if T = 0 then 100 else ((100 * S / T : Nat) : Int)

/-- An analyzer that answers the same three counts for every key and window. -/
def constAnalysis (failure successed total : Int) : Analysis :=
  { GetRecentlyRequestFailureCount := fun _ _ => failure
    GetRecentlyRequestSuccessedCount := fun _ _ => successed
    GetRecentlyRequestCount := fun _ _ => total }

/-- The policy of the concrete scenarios: trip at 50% failures over 10s, promote at 80%
successes, sample 30% of the probation traffic. -/
def scenarioPolicy : CircuitBreaker :=
  { OpenToCloseRate := 50
    OpenToClose := 10000000000
    HalfToOpenRate := 80
    HalfToOpen := 5000000000
    HalfTrafficRate := 30 }

/-- A context of server `"s1"` under `scenarioPolicy` with the given status and counts. -/
def scenarioContext (status : Circuit) (failure successed : Nat) : Context :=
  { circuitBreaker := some scenarioPolicy
    circuit := status
    analysis := constAnalysis failure successed (failure + successed)
    proxyServerAddr := "s1" }

/-- A `Pre` call on `c` sees a failure-rate breach: `c` has a policy and the failure rate of
its window is at least `OpenToCloseRate`. -/
def observesBreach (c : Context) : Bool :=
  match c.GetCircuitBreaker, CircuitBreakeFilter.getFailureRate c with
  | some cb, some rate => decide (cb.OpenToCloseRate ≤ rate)
  | _, _ => false

/-- The call is a `Pre` whose analyzer answers show a breach for the server of `c`. -/
def callObservesBreach (c : Context) : Call → Bool
  | Call.pre a _ => observesBreach { c with analysis := a }
  | Call.post _ => false
  | Call.postErr => false

/-- No `Pre` call of the sequence sees a breach for the server of `c`. -/
def noBreach (c : Context) (calls : List Call) : Bool :=
  calls.all (fun call => !callObservesBreach c call)

/-- A context of server `"s1"` without a circuit-breaker policy (nil), with the given
status and an analyzer that reports 8 successes out of 10 requests. -/
def noPolicyContext (status : Circuit) : Context :=
  { circuitBreaker := none
    circuit := status
    analysis := constAnalysis 2 8 10
    proxyServerAddr := "s1" }

/-- Number of the `RateBase` possible draws `0, ..., RateBase - 1` that `limitAllow` lets
through at the given sampling percentage. -/
def admittedDraws (rate : Int) : Nat :=
  ((List.range RateBase).filter (fun randValue => limitAllow randValue rate)).length

/-! ## Routing table (`pkg/proxy/router.go`)

Modelling conventions of this part

* A Go map is a function from keys to `Option` values (`none`: the key is absent, so an index
  expression yields the zero value, nil for pointers).
* `range` over a map visits its entries in an order chosen by the run time, anew for every
  loop.  The entries of `apis` and `routings` are kept as lists, and every loop over them
  takes the order it visits them in (a scan, a permutation of the entries) as an argument.
* A `*clusterRuntime` is an address (`Nat`) into `clusterObjs`, the cluster objects of the
  table; `none` is the nil pointer.
* The log line of `doUnBind` and the fields of `dispathNode` that keep their zero value are
  not represented.  The table's lock appears only in the traced variant of `dispatch`
  (`dispatchTraced`), which returns, next to the result, the lock operations and map
  evaluations of the run in order.
-/

/-- Modelled from the spec: the inbound request (`fasthttp.Request`), reduced to its
headers; predicates over it are fields of `API` and `Routing`. -/
structure Request where
  headers : List (String × String)

/-- Modelled from the spec: `model.Node` (not under `src/`), an API's reference to a
destination cluster plus an optional rewrite rule. -/
structure Node where
  ClusterName : String
  Rewrite : String
  deriving DecidableEq

/-- Modelled from the spec: `model.API` (not under `src/`): a match predicate, taken as a
parameter, and the ordered Node entries. -/
structure API where
  Matches : Request → Bool
  Nodes : List Node

/-- Modelled from the spec: `model.Routing` (not under `src/`): a predicate, taken as a
parameter, plus a target cluster name. -/
structure Routing where
  Matches : Request → Bool
  Cluster : String

/-- Modelled from the spec: `model.Server` (not under `src/`): identity and
circuit-breaker policy. -/
structure Server where
  ID : String
  CircuitBreaker : Option CircuitBreaker
  deriving DecidableEq

/-- Modelled from the spec: `serverRuntime` (not under `src/`): the static metadata of a
server with its live breaker status. -/
structure serverRuntime where
  meta : Server
  circuit : Circuit
  deriving DecidableEq

/-- Modelled from the spec: `model.Cluster` (not under `src/`): the cluster's identity. -/
structure Cluster where
  ID : String
  deriving DecidableEq

/-- Modelled from the spec: `clusterRuntime` (not under `src/`): identity, the set of member
server ids, and the load-balancing strategy (a parameter: it picks an address given the
request and the members). -/
structure clusterRuntime where
  meta : Cluster
  svrs : Finset String
  lb : Request → Finset String → String

namespace clusterRuntime

/-- Modelled from the spec: `clusterRuntime.selectServer` (not under `src/`): delegates to
the cluster's load-balancing strategy to pick a member address.  Following the spec ("if no
cluster or no server resolves, the Dispatch Node carries a nil destination"), on a nil
cluster it returns normally and picks no member: the answer `none` stands for an address
under which no server is registered. -/
def selectServer (cluster : Option clusterRuntime) (req : Request) : Option String :=
  match cluster with
  | none => none
  | some c => some (c.lb req c.svrs)

/-- Modelled from the spec: `clusterRuntime.doRemove` (not under `src/`): removes a server
id from the membership set, without locking. -/
def doRemove (c : clusterRuntime) (id : String) : clusterRuntime :=
  { c with svrs := c.svrs.erase id }

/-- Modelled from the spec: `clusterRuntime.remove` (not under `src/`): the lock-acquiring
mode of `doRemove`; the lock itself is not represented. -/
def remove (c : clusterRuntime) (id : String) : clusterRuntime :=
  c.doRemove id

/-- Modelled from the spec: `clusterRuntime.add` (not under `src/`): adds a server id to
the membership set. -/
def add (c : clusterRuntime) (id : String) : clusterRuntime :=
  { c with svrs := insert id c.svrs }

end clusterRuntime

/-- Go `delete(m, key)` on a map. -/
def goMapDelete {α : Type} (m : String → Option α) (key : String) : String → Option α :=
  fun k => if k = key then none else m k

/-- Go `m[key] = value` on a map. -/
def goMapStore {α : Type} (m : String → Option α) (key : String) (value : α) :
    String → Option α :=
  fun k => if k = key then some value else m k

/-- Go `make(map[string]T)`: the map without entries. -/
def goMapMake {α : Type} : String → Option α := fun _ => none

/-- Struct `dispathNode`: the fields `dispatch` sets (`res`, `err`, `code`, `merge` keep
their zero value). -/
structure dispathNode where
  api : API
  node : Node
  dest : Option serverRuntime

/-- Struct `dispatcher`: the fields the functions under `src/` read or write.  The field
`analysiser` is modelled from the spec: the (key, window) pairs the analyzer tracks. -/
structure dispatcher where
  clusterObjs : Nat → clusterRuntime
  clusters : String → Option Nat
  servers : String → Option serverRuntime
  mapping : String → Option (String → Option Nat)
  apis : List API
  routings : List Routing
  analysiser : List (String × Int)

/-- Modelled from the spec: `model.Analysis.AddRecentCount` (not under `src/`): records a
window to track for a key; idempotent. -/
def AddRecentCount (tracked : List (String × Int)) (key : String) (window : Int) :
    List (String × Int) :=
  if (key, window) ∈ tracked then tracked else tracked ++ [(key, window)]

/-- Constant `time.Second`, in nanoseconds. -/
def timeSecond : Int := 1000000000

namespace dispatcher

/-- The loop of `selectClusterByRouting` over the overrides still to visit: the first one
that matches sets the target and breaks. -/
def selectClusterByRoutingLoop (r : dispatcher) (req : Request) (targetCluster : Option Nat) :
    List Routing → Option Nat
  | [] => targetCluster
  | routing :: rest =>
    if routing.Matches req then r.clusters routing.Cluster
    else selectClusterByRoutingLoop r req targetCluster rest

/-- Method `selectClusterByRouting`; `routingScan` is the order in which this call's loop
visits `r.routings`. -/
def selectClusterByRouting (r : dispatcher) (req : Request) (src : Option Nat)
    (routingScan : List Routing) : Option Nat :=
  selectClusterByRoutingLoop r req src routingScan

/-- Method `doSelectServer`: asks the cluster for an address and looks the server up in
`r.servers`; under the address of no server the lookup finds nothing.  The outer `Option` of
the result is the panic layer, the inner one the possibly nil `*serverRuntime`. -/
def doSelectServer (r : dispatcher) (req : Request) (cluster : Option Nat) :
    Option (Option serverRuntime) :=
  match clusterRuntime.selectServer (cluster.map r.clusterObjs) req with
  | none => some none
  | some addr => some (r.servers addr)

/-- Method `selectServer`. -/
def selectServer (r : dispatcher) (req : Request) (cluster : Option Nat) :
    Option (Option serverRuntime) :=
  r.doSelectServer req cluster

/-- The inner loop of `dispatch` over the Nodes of a matching API, from position `index`
on; `routingScans i` is the order in which the override loop run for the Node at position
`i` visits `r.routings`. -/
def buildDispathes (r : dispatcher) (req : Request) (api : API)
    (routingScans : Nat → List Routing) : Nat → List Node → Option (List dispathNode)
  | _, [] => some []
  | index, node :: rest =>
    match r.selectServer req
        (r.selectClusterByRouting req (r.clusters node.ClusterName) (routingScans index)) with
    | none => none
    | some dest =>
      match buildDispathes r req api routingScans (index + 1) rest with
      | none => none
      | some dispathes => some ({ api := api, node := node, dest := dest } :: dispathes)

/-- The outer loop of `dispatch` over the APIs still to visit, `pos` being the position of
the next one in the scan: every matching API overwrites `dispathes`. -/
def dispatchLoop (r : dispatcher) (req : Request) (routingScans : Nat → Nat → List Routing) :
    Nat → List API → List dispathNode → Option (List dispathNode)
  | _, [], dispathes => some dispathes
  | pos, api :: rest, dispathes =>
    if api.Matches req then
      match buildDispathes r req api (routingScans pos) 0 api.Nodes with
      | none => none
      | some built => dispatchLoop r req routingScans (pos + 1) rest built
    else dispatchLoop r req routingScans (pos + 1) rest dispathes

/-- Method `dispatch`; `apiScan` is the order in which the loop visits `r.apis`, and
`routingScans pos i` the order in which the override loop run for Node `i` of the API at
position `pos` visits `r.routings`.  A nil slice and an empty slice are both `[]`. -/
def dispatch (r : dispatcher) (req : Request) (apiScan : List API)
    (routingScans : Nat → Nat → List Routing) : Option (List dispathNode) :=
  dispatchLoop r req routingScans 0 apiScan []

/-- Method `addAnalysis`. -/
def addAnalysis (r : dispatcher) (svr : serverRuntime) : dispatcher :=
  let tracked := AddRecentCount r.analysiser svr.meta.ID timeSecond
  match svr.meta.CircuitBreaker with
  | some cb =>
    let tracked1 := AddRecentCount tracked svr.meta.ID cb.OpenToClose
    { r with analysiser := AddRecentCount tracked1 svr.meta.ID cb.HalfToOpen }
  | none => { r with analysiser := tracked }

/-- Method `doUnBind`. -/
def doUnBind (r : dispatcher) (svr : serverRuntime) (cluster : Nat) (withLock : Bool) :
    dispatcher :=
  match r.mapping svr.meta.ID with
  | some binded =>
    let deleted := goMapDelete binded (r.clusterObjs cluster).meta.ID
    let r1 := { r with mapping := goMapStore r.mapping svr.meta.ID deleted }
    if withLock then
      let removed := (r1.clusterObjs cluster).remove svr.meta.ID
      { r1 with clusterObjs := Function.update r1.clusterObjs cluster removed }
    else
      let removed := (r1.clusterObjs cluster).doRemove svr.meta.ID
      { r1 with clusterObjs := Function.update r1.clusterObjs cluster removed }
  | none => r

/-- Modelled from the spec: binding a server to a cluster (the bind operation is not under
`src/`): records the cluster under `mapping[server id]` and the server in the cluster's
membership.  It is the mirror image of `doUnBind`: it works on the server's reverse-mapping
entry, and where the server has none there is no `mapping[server id]` to record under and
nothing is done. -/
def bind (r : dispatcher) (svr : serverRuntime) (cluster : Nat) : dispatcher :=
  match r.mapping svr.meta.ID with
  | some binded =>
    let recorded := goMapStore binded (r.clusterObjs cluster).meta.ID cluster
    let added := (r.clusterObjs cluster).add svr.meta.ID
    { r with
      mapping := goMapStore r.mapping svr.meta.ID recorded
      clusterObjs := Function.update r.clusterObjs cluster added }
  | none => r

/-- The cluster registered under `mapping[server][clusterID]`, nil (`none`) if either key
is absent. -/
def bound (r : dispatcher) (server clusterID : String) : Option Nat :=
  (r.mapping server).bind (fun binded => binded clusterID)

end dispatcher

/-! ## Concrete routing scenarios -/

/-- The predicate "the request carries the header `X-Canary`". -/
def hasCanaryHeader (req : Request) : Bool :=
  req.headers.any (fun h => h.1 == "X-Canary")

/-- A request with the header `X-Canary`. -/
def canaryRequest : Request := { headers := [("X-Canary", "1")] }

/-- A request without headers. -/
def plainRequest : Request := { headers := [] }

/-- Server `"s1"`, serving, under the scenario policy. -/
def serverS1 : serverRuntime :=
  { meta := { ID := "s1", CircuitBreaker := some scenarioPolicy }, circuit := Circuit.Open }

/-- Server `"s2"`, serving, without a policy. -/
def serverS2 : serverRuntime :=
  { meta := { ID := "s2", CircuitBreaker := none }, circuit := Circuit.Open }

/-- Cluster `"c1"` with the single member `"s1"`, which its strategy picks. -/
def clusterC1 : clusterRuntime :=
  { meta := { ID := "c1" }, svrs := {"s1"}, lb := fun _ _ => "s1" }

/-- Cluster `"c2"` with the single member `"s2"`, which its strategy picks. -/
def clusterC2 : clusterRuntime :=
  { meta := { ID := "c2" }, svrs := {"s2"}, lb := fun _ _ => "s2" }

/-- The Node that points to cluster `"c1"`. -/
def nodeC1 : Node := { ClusterName := "c1", Rewrite := "" }

/-- The Node that points to cluster `"c2"`. -/
def nodeC2 : Node := { ClusterName := "c2", Rewrite := "" }

/-- An API that matches every request, with one Node on `"c1"`. -/
def apiAll : API := { Matches := fun _ => true, Nodes := [nodeC1] }

/-- An API that matches every request, with one Node on `"c2"`. -/
def apiAllC2 : API := { Matches := fun _ => true, Nodes := [nodeC2] }

/-- An API that matches every request and fans out to `"c1"` and `"c2"`. -/
def apiFanOut : API := { Matches := fun _ => true, Nodes := [nodeC1, nodeC2] }

/-- The override that sends requests with the header `X-Canary` to `"c2"`. -/
def routingCanary : Routing := { Matches := hasCanaryHeader, Cluster := "c2" }

/-- An override that sends every request to `"c1"`. -/
def routingAllC1 : Routing := { Matches := fun _ => true, Cluster := "c1" }

/-- An override that sends every request to `"c2"`. -/
def routingAllC2 : Routing := { Matches := fun _ => true, Cluster := "c2" }

/-- The table of the scenarios: clusters `"c1"` (at address 1) and `"c2"` (at address 2),
servers `"s1"` and `"s2"` bound to them, and the given APIs and overrides. -/
def scenarioTable (apis : List API) (routings : List Routing) : dispatcher :=
  { clusterObjs := fun p => if p = 1 then clusterC1 else clusterC2
    clusters := goMapStore (goMapStore goMapMake "c1" 1) "c2" 2
    servers := goMapStore (goMapStore goMapMake "s1" serverS1) "s2" serverS2
    mapping :=
      goMapStore (goMapStore goMapMake "s1" (goMapStore goMapMake "c1" 1))
        "s2" (goMapStore goMapMake "c2" 2)
    apis := apis
    routings := routings
    analysiser := [] }

/-- The table of the scenarios without any registered cluster. -/
def noClusterTable (apis : List API) (routings : List Routing) : dispatcher :=
  { scenarioTable apis routings with clusters := goMapMake }

/-- Every override loop visits the overrides in the same order `scan`. -/
def sameScan (scan : List Routing) : Nat → Nat → List Routing :=
  fun _ _ => scan

/-- The override loop of Node 0 visits `first`, the loops of the later Nodes visit
`later`. -/
def twoScans (first later : List Routing) : Nat → Nat → List Routing :=
  fun _ index => if index = 0 then first else later

/-- A routing to a cluster name under which nothing is registered. -/
def routingAllC9 : Routing := { Matches := fun _ => true, Cluster := "c9" }

/-- The table of the scenarios without any registered server. -/
def noServerTable (apis : List API) (routings : List Routing) : dispatcher :=
  { scenarioTable apis routings with servers := goMapMake }

/-- The lockstep relation at a server id and a cluster: the cluster's id is a key of
`mapping[server]` exactly when the server is a member of the cluster. -/
def lockstepAt (r : dispatcher) (server : String) (cluster : Nat) : Prop :=
  (r.bound server (r.clusterObjs cluster).meta.ID).isSome = true ↔
    server ∈ (r.clusterObjs cluster).svrs

/-- The lockstep relation at a server id and a cluster can be decided by evaluation. -/
instance lockstepAtDecidable (r : dispatcher) (server : String) (cluster : Nat) :
    Decidable (lockstepAt r server cluster) := by
  unfold lockstepAt
  infer_instance

/-- An analyzer whose answers for the window `window` are `inWindow` (failures,
successes, total) and for every other window `elsewhere`. -/
def windowAnalysis (window : Int) (inWindow elsewhere : Int × Int × Int) : Analysis :=
  { GetRecentlyRequestFailureCount := fun _ w =>
      if w = window then inWindow.1 else elsewhere.1
    GetRecentlyRequestSuccessedCount := fun _ w =>
      if w = window then inWindow.2.1 else elsewhere.2.1
    GetRecentlyRequestCount := fun _ w =>
      if w = window then inWindow.2.2 else elsewhere.2.2 }

/-! ## The lock and the maps as one run of `dispatch` touches them -/

/-- The maps of the `dispatcher` that the table's lock guards. -/
inductive TableMap
  | binds
  | clusters
  | servers
  | mapping
  | apis
  | routings
  deriving DecidableEq

/-- One step of a run on the table's lock or maps: the four lock operations of
`sync.RWMutex`, an evaluation of a map (an index expression or the operand of `range`), and
a store into or delete from a map. -/
inductive TableEvent
  | RLock
  | RUnlock
  | Lock
  | Unlock
  | read (m : TableMap)
  | write (m : TableMap)
  deriving DecidableEq

/-- The event is the evaluation of a map. -/
def TableEvent.isRead : TableEvent → Bool
  | TableEvent.read _ => true
  | _ => false

namespace dispatcher

/-- The loop of `selectClusterByRouting` with the events of its body: the index expression
`r.clusters[routing.Cluster]` of the iteration that matches. -/
def selectClusterByRoutingLoopTraced (r : dispatcher) (req : Request)
    (targetCluster : Option Nat) : List Routing → Option Nat × List TableEvent
  | [] => (targetCluster, [])
  | routing :: rest =>
    if routing.Matches req then
      (r.clusters routing.Cluster, [TableEvent.read TableMap.clusters])
    else selectClusterByRoutingLoopTraced r req targetCluster rest

/-- Method `selectClusterByRouting` with its events: `range r.routings`, then the loop. -/
def selectClusterByRoutingTraced (r : dispatcher) (req : Request) (src : Option Nat)
    (routingScan : List Routing) : Option Nat × List TableEvent :=
  let out := selectClusterByRoutingLoopTraced r req src routingScan
  (out.1, TableEvent.read TableMap.routings :: out.2)

/-- Method `doSelectServer` with its events: the index expression `r.servers[addr]`. -/
def doSelectServerTraced (r : dispatcher) (req : Request) (cluster : Option Nat) :
    Option (Option serverRuntime) × List TableEvent :=
  match clusterRuntime.selectServer (cluster.map r.clusterObjs) req with
  | none => (some none, [TableEvent.read TableMap.servers])
  | some addr => (some (r.servers addr), [TableEvent.read TableMap.servers])

/-- Method `selectServer` with its events. -/
def selectServerTraced (r : dispatcher) (req : Request) (cluster : Option Nat) :
    Option (Option serverRuntime) × List TableEvent :=
  r.doSelectServerTraced req cluster

/-- The inner loop of `dispatch` with its events: per Node the index expression
`r.clusters[node.ClusterName]`, then the events of `selectClusterByRouting`, then those of
`selectServer`. -/
def buildDispathesTraced (r : dispatcher) (req : Request) (api : API)
    (routingScans : Nat → List Routing) :
    Nat → List Node → Option (List dispathNode) × List TableEvent
  | _, [] => (some [], [])
  | index, node :: rest =>
    let routed :=
      r.selectClusterByRoutingTraced req (r.clusters node.ClusterName) (routingScans index)
    let selected := r.selectServerTraced req routed.1
    let events := TableEvent.read TableMap.clusters :: (routed.2 ++ selected.2)
    match selected.1 with
    | none => (none, events)
    | some dest =>
      let tail := buildDispathesTraced r req api routingScans (index + 1) rest
      match tail.1 with
      | none => (none, events ++ tail.2)
      | some dispathes =>
        (some ({ api := api, node := node, dest := dest } :: dispathes), events ++ tail.2)

/-- The outer loop of `dispatch` with its events. -/
def dispatchLoopTraced (r : dispatcher) (req : Request)
    (routingScans : Nat → Nat → List Routing) :
    Nat → List API → List dispathNode → Option (List dispathNode) × List TableEvent
  | _, [], dispathes => (some dispathes, [])
  | pos, api :: rest, dispathes =>
    if api.Matches req then
      let built := buildDispathesTraced r req api (routingScans pos) 0 api.Nodes
      match built.1 with
      | none => (none, built.2)
      | some nodes =>
        let tail := dispatchLoopTraced r req routingScans (pos + 1) rest nodes
        (tail.1, built.2 ++ tail.2)
    else dispatchLoopTraced r req routingScans (pos + 1) rest dispathes

/-- Method `dispatch` with its events: `r.RLock()`, `range r.apis`, the loop, and, if the
loop did not panic, `r.RUnlock()` before the return. -/
def dispatchTraced (r : dispatcher) (req : Request) (apiScan : List API)
    (routingScans : Nat → Nat → List Routing) :
    Option (List dispathNode) × List TableEvent :=
  let out := dispatchLoopTraced r req routingScans 0 apiScan []
  match out.1 with
  | none => (none, TableEvent.RLock :: TableEvent.read TableMap.apis :: out.2)
  | some dispathes =>
    (some dispathes,
      TableEvent.RLock :: TableEvent.read TableMap.apis :: (out.2 ++ [TableEvent.RUnlock]))

end dispatcher

/-! ## Helper lemmas -/

open CircuitBreakeFilter

/-- A value in the non-negative range of a 64-bit signed integer is not changed by the
wrap-around. -/
theorem wrapInt64_of_nonneg_lt (x : Int) (h0 : 0 ≤ x) (h1 : x < 9223372036854775808) :
    wrapInt64 x = x := by
  unfold wrapInt64
  omega

/-- On natural counts whose hundredfold fits a 64-bit signed integer, the Go expression
`count * 100 / total` is the floor of the exact quotient. -/
theorem goDiv_natCast (a b : Nat) (hb : b ≠ 0) (ha : 100 * a < 9223372036854775808) :
    goDiv (goMul (a : Int) 100) (b : Int) = some ((100 * a / b : Nat) : Int) := by
  have hb' : (b : Int) ≠ 0 := by exact_mod_cast hb
  have hcast : ((a : Int) * 100) = ((100 * a : Nat) : Int) := by push_cast; ring
  have hmul : goMul (a : Int) 100 = ((100 * a : Nat) : Int) := by
    unfold goMul
    rw [hcast]
    exact wrapInt64_of_nonneg_lt _ (Int.ofNat_nonneg _) (by exact_mod_cast ha)
  have hle : 100 * a / b ≤ 100 * a := Nat.div_le_self _ _
  simp only [goDiv, if_neg hb', hmul]
  rw [← Int.ofNat_tdiv]
  rw [wrapInt64_of_nonneg_lt _ (Int.ofNat_nonneg _) (by exact_mod_cast (by omega : 100 * a / b < 9223372036854775808))]

theorem getFailureRate_counts (c : Context) (cb : CircuitBreaker) (F T : Nat)
    (hcb : c.GetCircuitBreaker = some cb)
    (hF : c.GetAnalysis.GetRecentlyRequestFailureCount c.GetProxyServerAddr cb.OpenToClose = F)
    (hT : c.GetAnalysis.GetRecentlyRequestCount c.GetProxyServerAddr cb.OpenToClose = T)
    (hfit : 100 * F < 9223372036854775808) :
    getFailureRate c = some (specFailureRate F T) := by
  unfold getFailureRate specFailureRate
  simp only [hcb, hF, hT]
  by_cases h : T = 0
  · simp [h]
  · have h' : (T : Int) ≠ 0 := by exact_mod_cast h
    rw [if_neg h', if_neg h]
    exact goDiv_natCast F T h hfit

theorem getSucceedRate_counts (c : Context) (cb : CircuitBreaker) (S T : Nat)
    (hcb : c.GetCircuitBreaker = some cb)
    (hS : c.GetAnalysis.GetRecentlyRequestSuccessedCount c.GetProxyServerAddr cb.OpenToClose = S)
    (hT : c.GetAnalysis.GetRecentlyRequestCount c.GetProxyServerAddr cb.OpenToClose = T)
    (hfit : 100 * S < 9223372036854775808) :
    getSucceedRate c = some (specSucceedRate S T) := by
  unfold getSucceedRate specSucceedRate
  simp only [hcb, hS, hT]
  by_cases h : T = 0
  · simp [h]
  · have h' : (T : Int) ≠ 0 := by exact_mod_cast h
    rw [if_neg h', if_neg h]
    exact goDiv_natCast S T h hfit

theorem getFailureRate_isSome (c : Context) (cb : CircuitBreaker)
    (hcb : c.GetCircuitBreaker = some cb) : (getFailureRate c).isSome = true := by
  unfold getFailureRate
  simp only [hcb]
  split_ifs with h
  · rfl
  · simp [goDiv, h]

theorem getSucceedRate_isSome (c : Context) (cb : CircuitBreaker)
    (hcb : c.GetCircuitBreaker = some cb) : (getSucceedRate c).isSome = true := by
  unfold getSucceedRate
  simp only [hcb]
  split_ifs with h
  · rfl
  · simp [goDiv, h]

/-! ## Claims -/

/-- C1, as amended. `Pre` in Open state: with a policy, status Open and `F` failures out
of `T` requests reported for the `OpenToClose` window, where `100*F` fits a 64-bit signed
integer (`100*F < 2^63`), a failure rate (`floor(100*F/T)`, `-1` when `T = 0`) below
`OpenToCloseRate` makes `Pre` return `(200, nil)` with the context untouched (status stays
Open); a failure rate at or above it makes `Pre` return `(503, ErrCircuitClose)` and the
status becomes Close. -/
theorem pre_open_trips_on_failure_rate (c : Context) (cb : CircuitBreaker)
    (randValue F T : Nat)
    (hcb : c.GetCircuitBreaker = some cb) (hopen : c.circuit = Circuit.Open)
    (hF : c.GetAnalysis.GetRecentlyRequestFailureCount c.GetProxyServerAddr cb.OpenToClose = F)
    (hT : c.GetAnalysis.GetRecentlyRequestCount c.GetProxyServerAddr cb.OpenToClose = T)
    (hfit : 100 * F < 9223372036854775808) :
    (specFailureRate F T < cb.OpenToCloseRate →
      Pre c randValue = some ((200, none), c) ∧ c.circuit = Circuit.Open) ∧
    (cb.OpenToCloseRate ≤ specFailureRate F T →
      Pre c randValue = some ((503, some ErrCircuitClose), c.ChangeCircuitStatusToClose) ∧
      c.ChangeCircuitStatusToClose.circuit = Circuit.Close) := by
  have hrate := getFailureRate_counts c cb F T hcb hF hT hfit
  have hO : c.IsCircuitOpen = true := by simp [Context.IsCircuitOpen, hopen]
  constructor
  · intro hlt
    refine ⟨?_, hopen⟩
    unfold Pre
    simp only [hcb, hO, hrate, if_true]
    rw [if_neg (not_le.mpr hlt)]
    rfl
  · intro hge
    refine ⟨?_, rfl⟩
    unfold Pre
    simp only [hcb, hO, hrate, if_true]
    rw [if_pos hge]
    rfl

/-- Witness of C1: threshold 50; 4 failures and 6 successes (rate 40) and 5 failures and
6 successes (rate 45) are let through with the status Open; 7 failures and 6 successes
(rate 53) are rejected with `ErrCircuitClose` and the status becomes Close. -/
theorem pre_open_trips_on_failure_rate_witness :
    (Pre (scenarioContext Circuit.Open 4 6) 0
        = some ((200, none), scenarioContext Circuit.Open 4 6)) ∧
    (Pre (scenarioContext Circuit.Open 5 6) 0
        = some ((200, none), scenarioContext Circuit.Open 5 6)) ∧
    (Pre (scenarioContext Circuit.Open 7 6) 0
        = some ((503, some ErrCircuitClose), scenarioContext Circuit.Close 7 6)) :=
  ⟨((pre_open_trips_on_failure_rate (scenarioContext Circuit.Open 4 6) scenarioPolicy 0 4 10
      rfl rfl rfl rfl (by decide)).1 (by decide)).1,
   ((pre_open_trips_on_failure_rate (scenarioContext Circuit.Open 5 6) scenarioPolicy 0 5 11
      rfl rfl rfl rfl (by decide)).1 (by decide)).1,
   ((pre_open_trips_on_failure_rate (scenarioContext Circuit.Open 7 6) scenarioPolicy 0 7 13
      rfl rfl rfl rfl (by decide)).2 (by decide)).1⟩

/-- Counterexample to C1 as stated: threshold 50, status Open, and 92233720368547759
failures out of as many requests.  The failure rate `floor(100*F/T)` is 100, at or above the
threshold, but `failureCount * 100` wraps around to a negative 64-bit value, the computed
rate is `-99`, and `Pre` returns `(200, nil)` and leaves the status Open. -/
theorem pre_open_trips_on_failure_rate_counterexample :
    specFailureRate 92233720368547759 92233720368547759 = 100 ∧
    scenarioPolicy.OpenToCloseRate ≤ specFailureRate 92233720368547759 92233720368547759 ∧
    getFailureRate (scenarioContext Circuit.Open 92233720368547759 0) = some (-99) ∧
    Pre (scenarioContext Circuit.Open 92233720368547759 0) 0
      = some ((200, none), scenarioContext Circuit.Open 92233720368547759 0) :=
  ⟨by decide, by decide, rfl, rfl⟩

/-- One hook call on a context whose status is Close returns normally and leaves the status
Close and the policy as it was, with or without a policy. -/
theorem applyCall_close (c : Context) (call : Call) (hclose : c.circuit = Circuit.Close) :
    ∃ c', applyCall c call = some c' ∧ c'.circuit = Circuit.Close ∧
      c'.circuitBreaker = c.circuitBreaker := by
  cases call with
  | pre a r =>
    cases hp : c.circuitBreaker with
    | none =>
      exact ⟨{ c with analysis := a }, by simp [applyCall, Pre, Context.GetCircuitBreaker, hp],
        hclose, hp⟩
    | some cb =>
      exact ⟨{ c with analysis := a },
        by simp [applyCall, Pre, Context.GetCircuitBreaker, Context.IsCircuitOpen,
          Context.IsCircuitHalf, hp, hclose],
        hclose, hp⟩
  | post a =>
    cases hp : c.circuitBreaker with
    | none =>
      exact ⟨{ c with analysis := a }, by simp [applyCall, Post, Context.GetCircuitBreaker, hp],
        hclose, hp⟩
    | some cb =>
      exact ⟨{ c with analysis := a },
        by simp [applyCall, Post, Context.GetCircuitBreaker, Context.IsCircuitHalf, hp, hclose],
        hclose, hp⟩
  | postErr =>
    exact ⟨c, by simp [applyCall, PostErr, Context.IsCircuitHalf, hclose], hclose, rfl⟩

/-- C2. Close is absorbing for the filter: with a policy and status Close, `Pre` returns
`(503, ErrCircuitClose)` whatever the analyzer answers and whatever the draw is, and every
finite sequence of `Pre`, `Post` and `PostErr` calls runs to completion with the status
still Close; the external promotion `ChangeCircuitStatusToHalf` does leave Close. -/
theorem close_is_absorbing (c : Context) (cb : CircuitBreaker)
    (hcb : c.GetCircuitBreaker = some cb) (hclose : c.circuit = Circuit.Close) :
    (∀ (a : Analysis) (randValue : Nat),
      Pre { c with analysis := a } randValue
        = some ((503, some ErrCircuitClose), { c with analysis := a })) ∧
    (∀ calls : List Call, ∃ c', runCalls c calls = some c' ∧ c'.circuit = Circuit.Close) ∧
    c.ChangeCircuitStatusToHalf.circuit = Circuit.Half := by
  refine ⟨?_, ?_, rfl⟩
  · intro a r
    have hcb' : c.circuitBreaker = some cb := hcb
    simp [Pre, Context.GetCircuitBreaker, Context.IsCircuitOpen, Context.IsCircuitHalf, hcb',
      hclose, StatusServiceUnavailable]
  · intro calls
    clear hcb
    induction calls generalizing c with
    | nil => exact ⟨c, rfl, hclose⟩
    | cons call rest ih =>
      obtain ⟨c1, h1, hc1, _⟩ := applyCall_close c call hclose
      obtain ⟨c2, h2, hc2⟩ := ih c1 hc1
      exact ⟨c2, by simp [runCalls, h1, h2], hc2⟩

/-- Witness of C2: a Close server under the scenario policy rejects `Pre` although its window
shows no failure at all, and stays Close through `Post`, `PostErr`, `Pre`. -/
theorem close_is_absorbing_witness :
    Pre { scenarioContext Circuit.Close 0 6 with analysis := constAnalysis 0 9 9 } 7
      = some ((503, some ErrCircuitClose),
          { scenarioContext Circuit.Close 0 6 with analysis := constAnalysis 0 9 9 }) ∧
    ∃ c', runCalls (scenarioContext Circuit.Close 0 6)
        [Call.post (constAnalysis 0 9 9), Call.postErr, Call.pre (constAnalysis 0 9 9) 7]
          = some c' ∧ c'.circuit = Circuit.Close :=
  ⟨(close_is_absorbing (scenarioContext Circuit.Close 0 6) scenarioPolicy rfl rfl).1
      (constAnalysis 0 9 9) 7,
   (close_is_absorbing (scenarioContext Circuit.Close 0 6) scenarioPolicy rfl rfl).2.1
      [Call.post (constAnalysis 0 9 9), Call.postErr, Call.pre (constAnalysis 0 9 9) 7]⟩

/-- C3. `Pre` in Half state: with a policy and status Half, for every draw `randValue`
(in particular every draw in `[0,100)`), `Pre` lets the request through, returning the base
filter's pass result with no error, exactly when `randValue < HalfTrafficRate`; otherwise it
returns `(503, ErrCircuitHalfLimited)`.  The context, hence the status Half, is unchanged in
both cases. -/
theorem pre_half_samples_traffic (c : Context) (cb : CircuitBreaker) (randValue : Nat)
    (hcb : c.GetCircuitBreaker = some cb) (hhalf : c.circuit = Circuit.Half) :
    (Pre c randValue = some (BaseFilter.Pre c, c) ↔ (randValue : Int) < cb.HalfTrafficRate) ∧
    (BaseFilter.Pre c).2 = none ∧
    (¬ (randValue : Int) < cb.HalfTrafficRate →
      Pre c randValue = some ((503, some ErrCircuitHalfLimited), c)) ∧
    (∃ res, Pre c randValue = some (res, c)) ∧ c.circuit = Circuit.Half := by
  have hO : c.IsCircuitOpen = false := by simp [Context.IsCircuitOpen, hhalf]
  have hH : c.IsCircuitHalf = true := by simp [Context.IsCircuitHalf, hhalf]
  by_cases hr : (randValue : Int) < cb.HalfTrafficRate
  · have hp : Pre c randValue = some (BaseFilter.Pre c, c) := by
      simp [Pre, hcb, hO, hH, limitAllow, hr]
    exact ⟨⟨fun _ => hr, fun _ => hp⟩, rfl, fun h => absurd hr h, ⟨_, hp⟩, hhalf⟩
  · have hp : Pre c randValue = some ((503, some ErrCircuitHalfLimited), c) := by
      simp [Pre, hcb, hO, hH, limitAllow, hr, StatusServiceUnavailable]
    refine ⟨⟨fun h => ?_, fun h => absurd h hr⟩, rfl, fun _ => hp, ⟨_, hp⟩, hhalf⟩
    rw [hp] at h
    simp [BaseFilter.Pre, StatusOK] at h

/-- Witness of C3: with `HalfTrafficRate = 30`, the draw 29 is let through. -/
theorem pre_half_samples_traffic_witness :
    Pre (scenarioContext Circuit.Half 2 8) 29
      = some (BaseFilter.Pre (scenarioContext Circuit.Half 2 8),
          scenarioContext Circuit.Half 2 8) :=
  (pre_half_samples_traffic (scenarioContext Circuit.Half 2 8) scenarioPolicy 29 rfl rfl).1.mpr
    (by decide)

/-- C4, as amended. `Post` in Half state: with a policy, status Half and `S` successes
out of `T` requests reported for the window, where `100*S` fits a 64-bit signed integer
(`100*S < 2^63`), `Post` returns normally and the status after it is Open exactly when the
success rate (`floor(100*S/T)`, `100` when `T = 0`) is at least `HalfToOpenRate`; below the
threshold the context is unchanged and the status stays Half. -/
theorem post_half_promotes_on_success_rate (c : Context) (cb : CircuitBreaker) (S T : Nat)
    (hcb : c.GetCircuitBreaker = some cb) (hhalf : c.circuit = Circuit.Half)
    (hS : c.GetAnalysis.GetRecentlyRequestSuccessedCount c.GetProxyServerAddr cb.OpenToClose = S)
    (hT : c.GetAnalysis.GetRecentlyRequestCount c.GetProxyServerAddr cb.OpenToClose = T)
    (hfit : 100 * S < 9223372036854775808) :
    ∃ res c', Post c = some (res, c') ∧
      (c'.circuit = Circuit.Open ↔ cb.HalfToOpenRate ≤ specSucceedRate S T) ∧
      (specSucceedRate S T < cb.HalfToOpenRate → c' = c ∧ c'.circuit = Circuit.Half) := by
  have hrate := getSucceedRate_counts c cb S T hcb hS hT hfit
  have hH : c.IsCircuitHalf = true := by simp [Context.IsCircuitHalf, hhalf]
  by_cases hge : cb.HalfToOpenRate ≤ specSucceedRate S T
  · refine ⟨BaseFilter.Post c.ChangeCircuitStatusToOpen, c.ChangeCircuitStatusToOpen, ?_,
      ⟨fun _ => hge, fun _ => rfl⟩, fun hlt => absurd hge (not_le.mpr hlt)⟩
    unfold Post
    simp only [hcb, hH, hrate, if_true]
    rw [if_pos hge]
  · refine ⟨BaseFilter.Post c, c, ?_, ⟨fun h => ?_, fun h => absurd h hge⟩,
      fun _ => ⟨rfl, hhalf⟩⟩
    · unfold Post
      simp only [hcb, hH, hrate, if_true]
      rw [if_neg hge]
    · rw [hhalf] at h
      exact absurd h (by decide)

/-- Witness of C4: `HalfToOpenRate = 80`; with 8 successes and 2 failures (success rate 80)
`Post` promotes the Half server to Open. -/
theorem post_half_promotes_on_success_rate_witness :
    ∃ res c', Post (scenarioContext Circuit.Half 2 8) = some (res, c') ∧
      c'.circuit = Circuit.Open := by
  obtain ⟨res, c', hpost, hiff, _⟩ :=
    post_half_promotes_on_success_rate (scenarioContext Circuit.Half 2 8) scenarioPolicy 8 10
      rfl rfl rfl rfl (by decide)
  exact ⟨res, c', hpost, hiff.mpr (by decide)⟩

/-- Counterexample to C4 as stated: `HalfToOpenRate = 80`, status Half, and
92233720368547759 successes out of as many requests.  The success rate `floor(100*S/T)` is
100, at or above the threshold, but `succeedCount * 100` wraps around to a negative 64-bit
value, the computed rate is `-99`, and `Post` leaves the status Half. -/
theorem post_half_promotes_on_success_rate_counterexample :
    specSucceedRate 92233720368547759 92233720368547759 = 100 ∧
    scenarioPolicy.HalfToOpenRate ≤ specSucceedRate 92233720368547759 92233720368547759 ∧
    getSucceedRate (scenarioContext Circuit.Half 0 92233720368547759) = some (-99) ∧
    Post (scenarioContext Circuit.Half 0 92233720368547759)
      = some ((200, none), scenarioContext Circuit.Half 0 92233720368547759) ∧
    (scenarioContext Circuit.Half 0 92233720368547759).circuit ≠ Circuit.Open :=
  ⟨by decide, by decide, rfl, rfl, by decide⟩

/-- C5. `PostErr` in Half state sets the status to Close whatever the analyzer's counts are
(it never reads them); in Open or Close state it leaves the context unchanged. -/
theorem postErr_half_closes (c : Context) :
    (c.circuit = Circuit.Half →
      ∀ a : Analysis, (PostErr { c with analysis := a }).circuit = Circuit.Close) ∧
    (c.circuit = Circuit.Open ∨ c.circuit = Circuit.Close → PostErr c = c) := by
  constructor
  · intro hhalf a
    simp [PostErr, Context.IsCircuitHalf, hhalf, Context.ChangeCircuitStatusToClose]
  · intro h
    rcases h with h | h <;> simp [PostErr, Context.IsCircuitHalf, h]

/-- Witness of C5: a Half server with 8 successes and no failure in its window is closed by
`PostErr`; an Open server is left as it is. -/
theorem postErr_half_closes_witness :
    (PostErr { scenarioContext Circuit.Half 2 8 with analysis := constAnalysis 0 8 8 }).circuit
      = Circuit.Close ∧
    PostErr (scenarioContext Circuit.Open 2 8) = scenarioContext Circuit.Open 2 8 :=
  ⟨(postErr_half_closes (scenarioContext Circuit.Half 2 8)).1 rfl (constAnalysis 0 8 8),
   (postErr_half_closes (scenarioContext Circuit.Open 2 8)).2 (Or.inl rfl)⟩

/-- C6, as amended. Rate helpers: with a policy, when the analyzer reports `F` failures,
`S` successes and `F + S > 0` requests for the window, `getFailureRate` returns
`floor(100*F/(F+S))` provided `100*F` fits a 64-bit signed integer (`100*F < 2^63`), and
`getSucceedRate` returns `floor(100*S/(F+S))` provided `100*S` does (natural-number division,
which truncates); when it reports 0 requests they return `-1` and `100`; and for all counts
whatsoever both return normally, so neither divides by zero. -/
theorem rate_helpers_truncate (c : Context) (cb : CircuitBreaker)
    (hcb : c.GetCircuitBreaker = some cb) :
    (∀ F S : Nat, 0 < F + S →
      c.GetAnalysis.GetRecentlyRequestFailureCount c.GetProxyServerAddr cb.OpenToClose = F →
      c.GetAnalysis.GetRecentlyRequestSuccessedCount c.GetProxyServerAddr cb.OpenToClose = S →
      c.GetAnalysis.GetRecentlyRequestCount c.GetProxyServerAddr cb.OpenToClose
        = ((F + S : Nat) : Int) →
      (100 * F < 9223372036854775808 →
        getFailureRate c = some ((100 * F / (F + S) : Nat) : Int)) ∧
      (100 * S < 9223372036854775808 →
        getSucceedRate c = some ((100 * S / (F + S) : Nat) : Int))) ∧
    (c.GetAnalysis.GetRecentlyRequestCount c.GetProxyServerAddr cb.OpenToClose = 0 →
      getFailureRate c = some (-1) ∧ getSucceedRate c = some 100) ∧
    ((getFailureRate c).isSome = true ∧ (getSucceedRate c).isSome = true) := by
  refine ⟨?_, ?_, getFailureRate_isSome c cb hcb, getSucceedRate_isSome c cb hcb⟩
  · intro F S hpos hF hS hT
    have hne : F + S ≠ 0 := Nat.pos_iff_ne_zero.mp hpos
    refine ⟨fun hfit => ?_, fun hfit => ?_⟩
    · have h1 := getFailureRate_counts c cb F (F + S) hcb hF hT hfit
      simp only [specFailureRate, if_neg hne] at h1
      exact h1
    · have h2 := getSucceedRate_counts c cb S (F + S) hcb hS hT hfit
      simp only [specSucceedRate, if_neg hne] at h2
      exact h2
  · intro h0
    simp [getFailureRate, getSucceedRate, hcb, h0]

/-- Witness of C6: 7 failures and 6 successes give the rates 53 and 46 (not 54 and 46, and
they do not add up to 100); an empty window gives `-1` and `100`. -/
theorem rate_helpers_truncate_witness :
    (getFailureRate (scenarioContext Circuit.Open 7 6) = some 53 ∧
      getSucceedRate (scenarioContext Circuit.Open 7 6) = some 46) ∧
    (getFailureRate (scenarioContext Circuit.Open 0 0) = some (-1) ∧
      getSucceedRate (scenarioContext Circuit.Open 0 0) = some 100) :=
  ⟨⟨((rate_helpers_truncate (scenarioContext Circuit.Open 7 6) scenarioPolicy rfl).1 7 6
      (by decide) rfl rfl rfl).1 (by decide),
    ((rate_helpers_truncate (scenarioContext Circuit.Open 7 6) scenarioPolicy rfl).1 7 6
      (by decide) rfl rfl rfl).2 (by decide)⟩,
   (rate_helpers_truncate (scenarioContext Circuit.Open 0 0) scenarioPolicy rfl).2.1 rfl⟩

/-- Counterexample to C6 as stated: with 92233720368547759 failures and no success the
claimed failure rate `floor(100*F/(F+S))` is 100, but `failureCount * 100` wraps around and
`getFailureRate` returns `-99`; likewise `getSucceedRate` with as many successes and no
failure. -/
theorem rate_helpers_truncate_counterexample :
    ((100 * 92233720368547759 / (92233720368547759 + 0) : Nat) : Int) = 100 ∧
    getFailureRate (scenarioContext Circuit.Open 92233720368547759 0) = some (-99) ∧
    getSucceedRate (scenarioContext Circuit.Open 0 92233720368547759) = some (-99) ∧
    getFailureRate (scenarioContext Circuit.Open 92233720368547759 0)
      ≠ some ((100 * 92233720368547759 / (92233720368547759 + 0) : Nat) : Int) :=
  ⟨by decide, rfl, rfl, by decide⟩

/-- Whether a `Pre` call sees a breach depends only on the policy, the server key and the
analyzer's answers, not on the breaker status. -/
theorem callObservesBreach_congr (c d : Context) (call : Call)
    (hcb : d.circuitBreaker = c.circuitBreaker)
    (haddr : d.proxyServerAddr = c.proxyServerAddr) :
    callObservesBreach d call = callObservesBreach c call := by
  cases call with
  | pre a r =>
    simp [callObservesBreach, observesBreach, getFailureRate, Context.GetCircuitBreaker,
      Context.GetAnalysis, Context.GetProxyServerAddr, hcb, haddr]
  | post a => rfl
  | postErr => rfl

/-- One hook call on an Open context returns normally; the status after it is Close if the
call is a `Pre` that sees a breach and Open otherwise; policy and server key are kept. -/
theorem applyCall_open (c : Context) (call : Call) (hopen : c.circuit = Circuit.Open) :
    ∃ c', applyCall c call = some c' ∧
      c'.circuit = (if callObservesBreach c call = true then Circuit.Close else Circuit.Open) ∧
      c'.circuitBreaker = c.circuitBreaker ∧ c'.proxyServerAddr = c.proxyServerAddr := by
  cases call with
  | pre a r =>
    cases hp : c.circuitBreaker with
    | none =>
      refine ⟨{ c with analysis := a }, ?_, ?_, hp, rfl⟩
      · simp [applyCall, Pre, Context.GetCircuitBreaker, hp]
      · simp [callObservesBreach, observesBreach, Context.GetCircuitBreaker, hp, hopen]
    | some cb =>
      have hcb : ({ c with analysis := a } : Context).GetCircuitBreaker = some cb := hp
      have hsome := getFailureRate_isSome { c with analysis := a } cb hcb
      obtain ⟨rate, hrate⟩ := Option.isSome_iff_exists.mp hsome
      have hO : ({ c with analysis := a } : Context).IsCircuitOpen = true := by
        simp [Context.IsCircuitOpen, hopen]
      have hob : callObservesBreach c (Call.pre a r) = decide (cb.OpenToCloseRate ≤ rate) := by
        simp only [callObservesBreach, observesBreach, hcb, hrate]
      rw [hob]
      by_cases hge : cb.OpenToCloseRate ≤ rate
      · refine ⟨({ c with analysis := a } : Context).ChangeCircuitStatusToClose, ?_, ?_, hp, rfl⟩
        · simp only [applyCall, Pre, hcb, hO, hrate, if_true]
          rw [if_pos hge]
          rfl
        · simp [hge, Context.ChangeCircuitStatusToClose]
      · refine ⟨{ c with analysis := a }, ?_, ?_, hp, rfl⟩
        · simp only [applyCall, Pre, hcb, hO, hrate, if_true]
          rw [if_neg hge]
          rfl
        · simp [hge, hopen]
  | post a =>
    cases hp : c.circuitBreaker with
    | none =>
      exact ⟨{ c with analysis := a }, by simp [applyCall, Post, Context.GetCircuitBreaker, hp],
        by simp [callObservesBreach, hopen], hp, rfl⟩
    | some cb =>
      exact ⟨{ c with analysis := a },
        by simp [applyCall, Post, Context.GetCircuitBreaker, Context.IsCircuitHalf, hp, hopen],
        by simp [callObservesBreach, hopen], hp, rfl⟩
  | postErr =>
    exact ⟨c, by simp [applyCall, PostErr, Context.IsCircuitHalf, hopen],
      by simp [callObservesBreach, hopen], rfl, rfl⟩

/-- From an Open context, a sequence of calls in which no `Pre` sees a breach runs to
completion with the status Open. -/
theorem runCalls_open (calls : List Call) (c : Context) (hopen : c.circuit = Circuit.Open)
    (hnb : noBreach c calls = true) :
    ∃ c', runCalls c calls = some c' ∧ c'.circuit = Circuit.Open := by
  induction calls generalizing c with
  | nil => exact ⟨c, rfl, hopen⟩
  | cons call rest ih =>
    simp only [noBreach, List.all_cons, Bool.and_eq_true, Bool.not_eq_true'] at hnb
    obtain ⟨c1, h1, hc1, hcb1, haddr1⟩ := applyCall_open c call hopen
    rw [hnb.1] at hc1
    have hrest : noBreach c1 rest = true := by
      simp only [noBreach, List.all_eq_true, Bool.not_eq_true'] at hnb ⊢
      intro x hx
      rw [callObservesBreach_congr c c1 x hcb1 haddr1]
      exact hnb.2 x hx
    obtain ⟨c2, h2, hc2⟩ := ih c1 (by simpa using hc1) hrest
    exact ⟨c2, by simp [runCalls, h1, h2], hc2⟩

/-- C7. Open stays Open until a failure-rate breach: on a context whose status is Open,
`Post` and `PostErr` never change the status; `Pre` returns normally and changes the status,
to Close, exactly when it sees a failure rate at or above `OpenToCloseRate`; every sequence of
calls in which no `Pre` sees a breach ends with the status Open, also when it is run right
after the `Post` call that produced this Open context (the promotion from Half). -/
theorem open_stays_open_until_breach (c : Context) (hopen : c.circuit = Circuit.Open) :
    (∀ a : Analysis, ∃ res, Post { c with analysis := a } = some (res, { c with analysis := a })) ∧
    PostErr c = c ∧
    (∀ (a : Analysis) (randValue : Nat), ∃ res c',
      Pre { c with analysis := a } randValue = some (res, c') ∧
      c'.circuit = (if observesBreach { c with analysis := a } = true
        then Circuit.Close else Circuit.Open)) ∧
    (∀ calls : List Call, noBreach c calls = true →
      ∃ c', runCalls c calls = some c' ∧ c'.circuit = Circuit.Open) ∧
    (∀ (c0 : Context) (a0 : Analysis) (calls : List Call),
      applyCall c0 (Call.post a0) = some c → noBreach c calls = true →
      ∃ c', runCalls c0 (Call.post a0 :: calls) = some c' ∧ c'.circuit = Circuit.Open) := by
  refine ⟨?_, ?_, ?_, ?_, ?_⟩
  · intro a
    cases hp : c.circuitBreaker with
    | none =>
      exact ⟨(StatusOK, none), by simp [Post, Context.GetCircuitBreaker, hp, BaseFilter.Pre]⟩
    | some cb =>
      exact ⟨(StatusOK, none), by
        simp [Post, Context.GetCircuitBreaker, Context.IsCircuitHalf, hp, hopen,
          BaseFilter.Post]⟩
  · simp [PostErr, Context.IsCircuitHalf, hopen]
  · intro a r
    obtain ⟨c', h, hc, _⟩ := applyCall_open c (Call.pre a r) hopen
    simp only [applyCall, Option.map_eq_some'] at h
    obtain ⟨⟨res, c''⟩, hpre, rfl⟩ := h
    exact ⟨res, c'', hpre, hc⟩
  · intro calls hnb
    exact runCalls_open calls c hopen hnb
  · intro c0 a0 calls h0 hnb
    obtain ⟨c', h, hc⟩ := runCalls_open calls c hopen hnb
    exact ⟨c', by simp [runCalls, h0, h], hc⟩

/-- Witness of C7: the Half server with 8 successes out of 10 is promoted by `Post`; two `Pre`
calls that see 40% and 45% failures, a `Post` and a `PostErr` then leave it Open. -/
theorem open_stays_open_until_breach_witness :
    ∃ c', runCalls (scenarioContext Circuit.Half 2 8)
        [Call.post (constAnalysis 2 8 10), Call.pre (constAnalysis 4 6 10) 99,
          Call.post (constAnalysis 4 6 10), Call.postErr, Call.pre (constAnalysis 5 6 11) 0]
          = some c' ∧ c'.circuit = Circuit.Open :=
  (open_stays_open_until_breach (scenarioContext Circuit.Open 2 8) rfl).2.2.2.2
    (scenarioContext Circuit.Half 2 8) (constAnalysis 2 8 10)
    [Call.pre (constAnalysis 4 6 10) 99, Call.post (constAnalysis 4 6 10), Call.postErr,
      Call.pre (constAnalysis 5 6 11) 0]
    rfl (by decide)

/-- C8, evaluated on a Half server whose policy is nil: `Pre` and `Post` are the passthrough
(the context is unchanged and the result is the base filter's), but `PostErr`, which does
not look at the policy, changes the status from Half to Close. -/
theorem postErr_without_policy_closes_half :
    (noPolicyContext Circuit.Half).GetCircuitBreaker = none ∧
    Pre (noPolicyContext Circuit.Half) 0
      = some (BaseFilter.Pre (noPolicyContext Circuit.Half), noPolicyContext Circuit.Half) ∧
    Post (noPolicyContext Circuit.Half)
      = some (BaseFilter.Post (noPolicyContext Circuit.Half), noPolicyContext Circuit.Half) ∧
    PostErr (noPolicyContext Circuit.Half) = noPolicyContext Circuit.Close ∧
    (PostErr (noPolicyContext Circuit.Half)).circuit ≠ (noPolicyContext Circuit.Half).circuit :=
  ⟨rfl, rfl, rfl, rfl, by decide⟩

/-- C9. Rejection signals: with a policy, `Pre` returns normally; its error is non-nil
exactly when its status code is 503; the error is nil, `ErrCircuitClose` or
`ErrCircuitHalfLimited`; `ErrCircuitClose` is returned only from status Close or from status
Open with the status becoming Close, `ErrCircuitHalfLimited` only from status Half; and for
every context, with or without a policy, neither `Pre` nor `Post` returns `ErrCircuitHalf`. -/
theorem pre_rejection_signals (c : Context) (cb : CircuitBreaker) (randValue : Nat)
    (hcb : c.GetCircuitBreaker = some cb) :
    (∃ res c', Pre c randValue = some (res, c') ∧
      (res.2 ≠ none ↔ res.1 = 503) ∧
      (res.2 = none ∨ res.2 = some ErrCircuitClose ∨ res.2 = some ErrCircuitHalfLimited) ∧
      (res.2 = some ErrCircuitClose →
        c.circuit = Circuit.Close ∨ (c.circuit = Circuit.Open ∧ c'.circuit = Circuit.Close)) ∧
      (res.2 = some ErrCircuitHalfLimited → c.circuit = Circuit.Half)) ∧
    (∀ (d : Context) (r : Nat) (res : HookResult) (d' : Context),
      Pre d r = some (res, d') ∨ Post d = some (res, d') → res.2 ≠ some ErrCircuitHalf) := by
  constructor
  · obtain ⟨rate, hrate⟩ := Option.isSome_iff_exists.mp (getFailureRate_isSome c cb hcb)
    cases hst : c.circuit with
    | Open =>
      have hO : c.IsCircuitOpen = true := by simp [Context.IsCircuitOpen, hst]
      by_cases hge : cb.OpenToCloseRate ≤ rate
      · refine ⟨(503, some ErrCircuitClose), c.ChangeCircuitStatusToClose, ?_, by simp,
          by simp, fun _ => Or.inr ⟨rfl, rfl⟩, by simp⟩
        simp only [Pre, hcb, hO, hrate, if_true]
        rw [if_pos hge]
        rfl
      · refine ⟨(200, none), c, ?_, by simp, by simp, by simp, by simp⟩
        simp only [Pre, hcb, hO, hrate, if_true]
        rw [if_neg hge]
        rfl
    | Half =>
      have hO : c.IsCircuitOpen = false := by simp [Context.IsCircuitOpen, hst]
      have hH : c.IsCircuitHalf = true := by simp [Context.IsCircuitHalf, hst]
      by_cases hr : (randValue : Int) < cb.HalfTrafficRate
      · exact ⟨(200, none), c, by simp [Pre, hcb, hO, hH, limitAllow, hr, BaseFilter.Pre,
          StatusOK], by simp, by simp, by simp, by simp⟩
      · exact ⟨(503, some ErrCircuitHalfLimited), c,
          by simp [Pre, hcb, hO, hH, limitAllow, hr, StatusServiceUnavailable],
          by simp, by simp, by simp, by simp⟩
    | Close =>
      have hO : c.IsCircuitOpen = false := by simp [Context.IsCircuitOpen, hst]
      have hH : c.IsCircuitHalf = false := by simp [Context.IsCircuitHalf, hst]
      exact ⟨(503, some ErrCircuitClose), c,
        by simp [Pre, hcb, hO, hH, StatusServiceUnavailable],
        by simp, by simp, by simp, by simp⟩
  · intro d r res d' h
    rcases h with h | h
    · unfold Pre at h
      split at h
      · simp only [BaseFilter.Pre, Option.some.injEq, Prod.mk.injEq] at h
        rw [← h.1]; simp
      · split_ifs at h
        · split at h
          · exact absurd h (by simp)
          · split_ifs at h <;>
              (simp only [Option.some.injEq, Prod.mk.injEq] at h; rw [← h.1]; simp)
        all_goals (simp only [BaseFilter.Pre, Option.some.injEq, Prod.mk.injEq] at h
                   rw [← h.1]; simp)
    · unfold Post at h
      split at h
      · simp only [BaseFilter.Pre, Option.some.injEq, Prod.mk.injEq] at h
        rw [← h.1]; simp
      · split_ifs at h
        · split at h
          · exact absurd h (by simp)
          · split_ifs at h <;>
              (simp only [BaseFilter.Post, Option.some.injEq, Prod.mk.injEq] at h
               rw [← h.1]; simp)
        · simp only [BaseFilter.Post, Option.some.injEq, Prod.mk.injEq] at h
          rw [← h.1]; simp

/-- Witness of C9: the Open server that sees 7 failures out of 13 requests is rejected by
`Pre` with a non-nil error and status code 503, and `Post` on it does not return
`ErrCircuitHalf`. -/
theorem pre_rejection_signals_witness :
    (∃ res c', Pre (scenarioContext Circuit.Open 7 6) 0 = some (res, c') ∧
      (res.2 ≠ none ↔ res.1 = 503)) ∧
    ((503, some ErrCircuitClose) : HookResult).2 ≠ some ErrCircuitHalf := by
  obtain ⟨⟨res, c', hpre, hiff, _⟩, hnever⟩ :=
    pre_rejection_signals (scenarioContext Circuit.Open 7 6) scenarioPolicy 0 rfl
  exact ⟨⟨res, c', hpre, hiff⟩,
    hnever (scenarioContext Circuit.Open 7 6) 0 (503, some ErrCircuitClose)
      (scenarioContext Circuit.Close 7 6) (Or.inl rfl)⟩

/-- Among the draws `0, ..., n - 1`, those below `p` number `min p n`. -/
theorem length_filter_range_lt (p n : Nat) :
    ((List.range n).filter (fun r => decide (r < p))).length = min p n := by
  induction n with
  | zero => simp
  | succ n ih =>
    rw [List.range_succ, List.filter_append, List.length_append, ih]
    by_cases h : n < p
    · simp [List.filter, h]
      omega
    · simp [List.filter, h]
      omega

/-- At any sampling percentage `rate` (a Go `int`), `limitAllow` lets through exactly the
`min (max rate 0) RateBase` smallest draws. -/
theorem admittedDraws_eq (rate : Int) : admittedDraws rate = min rate.toNat RateBase := by
  unfold admittedDraws
  have hfun : (fun randValue : Nat => limitAllow randValue rate)
      = (fun r : Nat => decide (r < rate.toNat)) := by
    funext r
    simp [limitAllow, Int.lt_toNat]
  rw [hfun]
  exact length_filter_range_lt rate.toNat RateBase

/-- C10. Half-state admission fraction: for every sampling percentage `p` with
`0 ≤ p ≤ 100`, exactly `p` of the 100 possible draws pass `limitAllow`, so the fraction of
passing draws is `p/100`; for a percentage `≤ 0` no draw passes, and for a percentage `≥ 100`
every draw in `[0,100)` passes. -/
theorem half_admission_fraction :
    RateBase = 100 ∧
    (∀ p : Nat, p ≤ 100 →
      admittedDraws (p : Int) = p ∧ (admittedDraws (p : Int) : ℚ) / RateBase = (p : ℚ) / 100) ∧
    (∀ rate : Int, rate ≤ 0 →
      admittedDraws rate = 0 ∧ ∀ randValue : Nat, limitAllow randValue rate = false) ∧
    (∀ rate : Int, 100 ≤ rate →
      admittedDraws rate = 100 ∧
      ∀ randValue : Nat, randValue < RateBase → limitAllow randValue rate = true) := by
  refine ⟨rfl, ?_, ?_, ?_⟩
  · intro p hp
    have h : admittedDraws (p : Int) = p := by
      rw [admittedDraws_eq]
      simp [RateBase, hp]
    refine ⟨h, ?_⟩
    rw [h]
    simp [RateBase]
  · intro rate hrate
    refine ⟨?_, ?_⟩
    · rw [admittedDraws_eq, Int.toNat_eq_zero.mpr hrate]
      simp
    · intro r
      simp only [limitAllow, decide_eq_false_iff_not, not_lt]
      omega
  · intro rate hrate
    refine ⟨?_, ?_⟩
    · rw [admittedDraws_eq]
      simp only [RateBase]
      omega
    · intro r hr
      simp only [limitAllow, decide_eq_true_eq]
      simp only [RateBase] at hr
      omega

/-- Witness of C10: at 30% exactly 30 of the 100 draws pass; at 0% none; at 100% all. -/
theorem half_admission_fraction_witness :
    admittedDraws 30 = 30 ∧ admittedDraws 0 = 0 ∧ admittedDraws 100 = 100 :=
  ⟨(half_admission_fraction.2.1 30 (by decide)).1,
   (half_admission_fraction.2.2.1 0 (by decide)).1,
   (half_admission_fraction.2.2.2 100 (by decide)).1⟩

/-! ## Routing table: helper lemmas -/

/-- A list with an element satisfying `p` splits at the first such element. -/
theorem exists_first_split {α : Type} (p : α → Bool) (l : List α)
    (h : ∃ x ∈ l, p x = true) :
    ∃ pre x post, l = pre ++ x :: post ∧ (∀ y ∈ pre, p y = false) ∧ p x = true := by
  induction l with
  | nil => obtain ⟨x, hx, _⟩ := h; cases hx
  | cons a l ih =>
    by_cases ha : p a = true
    · exact ⟨[], a, l, rfl, by simp, ha⟩
    · have ha' : p a = false := by simpa using ha
      obtain ⟨x, hx, hpx⟩ := h
      have hxl : x ∈ l := by
        rcases List.mem_cons.mp hx with rfl | hxl
        · exact absurd hpx ha
        · exact hxl
      obtain ⟨pre, y, post, hl, hpre, hy⟩ := ih ⟨x, hxl, hpx⟩
      refine ⟨a :: pre, y, post, by simp [hl], ?_, hy⟩
      intro z hz
      rcases List.mem_cons.mp hz with rfl | hz
      · exact ha'
      · exact hpre z hz

/-- A list with an element satisfying `p` splits at the last such element. -/
theorem exists_last_split {α : Type} (p : α → Bool) (l : List α)
    (h : ∃ x ∈ l, p x = true) :
    ∃ pre x post, l = pre ++ x :: post ∧ p x = true ∧ (∀ y ∈ post, p y = false) := by
  induction l with
  | nil => obtain ⟨x, hx, _⟩ := h; cases hx
  | cons a l ih =>
    by_cases hl : ∃ x ∈ l, p x = true
    · obtain ⟨pre, y, post, hl', hy, hpost⟩ := ih hl
      exact ⟨a :: pre, y, post, by simp [hl'], hy, hpost⟩
    · have hnone : ∀ y ∈ l, p y = false := by
        intro y hy
        by_contra hc
        exact hl ⟨y, hy, by simpa using hc⟩
      obtain ⟨x, hx, hpx⟩ := h
      rcases List.mem_cons.mp hx with rfl | hxl
      · exact ⟨[], x, l, rfl, hpx, hnone⟩
      · exact absurd ⟨x, hxl, hpx⟩ hl

/-- A list whose `p`-elements are exactly `[x]` splits around `x` into two parts without
`p`-elements. -/
theorem filter_singleton_split {α : Type} (p : α → Bool) (l : List α) (x : α)
    (h : l.filter p = [x]) :
    ∃ pre post, l = pre ++ x :: post ∧ (∀ y ∈ pre, p y = false) ∧ p x = true ∧
      (∀ y ∈ post, p y = false) := by
  induction l with
  | nil => simp at h
  | cons a l ih =>
    by_cases ha : p a = true
    · rw [List.filter_cons_of_pos ha] at h
      have hax : a = x := (List.cons.inj h).1
      have hnil : l.filter p = [] := (List.cons.inj h).2
      subst hax
      refine ⟨[], l, rfl, by simp, ha, ?_⟩
      intro y hy
      by_contra hc
      have : y ∈ l.filter p := List.mem_filter.mpr ⟨hy, by simpa using hc⟩
      rw [hnil] at this
      cases this
    · have ha' : p a = false := by simpa using ha
      rw [List.filter_cons_of_neg ha] at h
      obtain ⟨pre, post, hl, hpre, hx, hpost⟩ := ih h
      refine ⟨a :: pre, post, by simp [hl], ?_, hx, hpost⟩
      intro z hz
      rcases List.mem_cons.mp hz with rfl | hz
      · exact ha'
      · exact hpre z hz

namespace dispatcher

/-- The override loop returns the default when no visited override matches. -/
theorem selectClusterByRoutingLoop_none (r : dispatcher) (req : Request) (src : Option Nat)
    (scan : List Routing) (h : ∀ rt ∈ scan, rt.Matches req = false) :
    r.selectClusterByRoutingLoop req src scan = src := by
  induction scan with
  | nil => rfl
  | cons rt rest ih =>
    have hrt : rt.Matches req = false := h rt (List.mem_cons_self _ _)
    simp only [selectClusterByRoutingLoop, hrt]
    exact ih (fun x hx => h x (List.mem_cons_of_mem _ hx))

/-- The override loop returns the cluster registered under the name of the first visited
override that matches, whatever follows it. -/
theorem selectClusterByRoutingLoop_split (r : dispatcher) (req : Request) (src : Option Nat)
    (pre : List Routing) (rt : Routing) (post : List Routing)
    (hpre : ∀ x ∈ pre, x.Matches req = false) (hrt : rt.Matches req = true) :
    r.selectClusterByRoutingLoop req src (pre ++ rt :: post) = r.clusters rt.Cluster := by
  induction pre with
  | nil => simp [selectClusterByRoutingLoop, hrt]
  | cons a pre ih =>
    have ha : a.Matches req = false := hpre a (List.mem_cons_self _ _)
    simp only [List.cons_append, selectClusterByRoutingLoop, ha]
    exact ih (fun x hx => hpre x (List.mem_cons_of_mem _ hx))

end dispatcher

namespace dispatcher

/-- Server selection returns normally on every cluster, nil included. -/
theorem selectServer_isSome (r : dispatcher) (req : Request) (cluster : Option Nat) :
    (r.selectServer req cluster).isSome = true := by
  unfold selectServer doSelectServer
  split <;> rfl

/-- Server selection on a nil cluster returns a nil server. -/
theorem selectServer_nil (r : dispatcher) (req : Request) :
    r.selectServer req none = some none := rfl

/-- Server selection on a non-nil cluster returns the server registered under the address
that the cluster's strategy picks. -/
theorem selectServer_some (r : dispatcher) (req : Request) (p : Nat) :
    r.selectServer req (some p)
      = some (r.servers ((r.clusterObjs p).lb req (r.clusterObjs p).svrs)) := rfl

/-- What the inner loop of `dispatch` returns: one element per Node, in order, each with
the API, the Node, and the server selected for it. -/
theorem buildDispathes_some (r : dispatcher) (req : Request) (api : API)
    (routingScans : Nat → List Routing) (nodes : List Node) :
    ∀ (index : Nat) (built : List dispathNode),
      buildDispathes r req api routingScans index nodes = some built →
      built.length = nodes.length ∧
      ∀ (i : Nat) (node : Node), nodes[i]? = some node →
        ∃ dest,
          r.selectServer req (r.selectClusterByRouting req (r.clusters node.ClusterName)
            (routingScans (index + i))) = some dest ∧
          built[i]? = some { api := api, node := node, dest := dest } := by
  induction nodes with
  | nil =>
    intro index built h
    simp only [buildDispathes, Option.some.injEq] at h
    subst h
    exact ⟨rfl, by simp⟩
  | cons n rest ih =>
    intro index built h
    simp only [buildDispathes] at h
    split at h
    · exact absurd h (by simp)
    · rename_i dest hdest
      split at h
      · exact absurd h (by simp)
      · rename_i tail htail
        simp only [Option.some.injEq] at h
        subst h
        obtain ⟨hlen, hget⟩ := ih (index + 1) tail htail
        refine ⟨by simp [hlen], ?_⟩
        intro i node hi
        cases i with
        | zero =>
          simp only [List.getElem?_cons_zero, Option.some.injEq] at hi
          subst hi
          exact ⟨dest, hdest, by simp⟩
        | succ j =>
          simp only [List.getElem?_cons_succ] at hi
          obtain ⟨d, hd, hb⟩ := hget j node hi
          refine ⟨d, ?_, by simpa using hb⟩
          have harith : index + (j + 1) = index + 1 + j := by omega
          rw [harith]
          exact hd

/-- The inner loop of `dispatch` returns normally. -/
theorem buildDispathes_isSome (r : dispatcher) (req : Request) (api : API)
    (routingScans : Nat → List Routing) (nodes : List Node) :
    ∀ (index : Nat), (buildDispathes r req api routingScans index nodes).isSome = true := by
  induction nodes with
  | nil => intro index; rfl
  | cons n rest ih =>
    intro index
    obtain ⟨dest, hdest⟩ := Option.isSome_iff_exists.mp
      (r.selectServer_isSome req (r.selectClusterByRouting req (r.clusters n.ClusterName)
        (routingScans index)))
    obtain ⟨tail, htail⟩ := Option.isSome_iff_exists.mp (ih (index + 1))
    simp [buildDispathes, hdest, htail]

/-- The outer loop of `dispatch` keeps its result over APIs that do not match. -/
theorem dispatchLoop_no_match (r : dispatcher) (req : Request)
    (routingScans : Nat → Nat → List Routing) (apis : List API) :
    ∀ (pos : Nat) (dispathes : List dispathNode),
      (∀ a ∈ apis, a.Matches req = false) →
      dispatchLoop r req routingScans pos apis dispathes = some dispathes := by
  induction apis with
  | nil => intro pos d _; rfl
  | cons a rest ih =>
    intro pos d h
    have ha : a.Matches req = false := h a (List.mem_cons_self _ _)
    simp only [dispatchLoop, ha]
    exact ih (pos + 1) d (fun x hx => h x (List.mem_cons_of_mem _ hx))

/-- The outer loop of `dispatch` on a scan split at its last matching API: if the part
before it is processed normally, the result is what the inner loop builds for that API. -/
theorem dispatchLoop_last_match (r : dispatcher) (req : Request)
    (routingScans : Nat → Nat → List Routing) (api : API) (post : List API)
    (hapi : api.Matches req = true) (hpost : ∀ a ∈ post, a.Matches req = false)
    (pre : List API) :
    ∀ (pos : Nat) (dispathes : List dispathNode),
      dispatchLoop r req routingScans pos (pre ++ api :: post) dispathes =
        match dispatchLoop r req routingScans pos pre dispathes with
        | none => none
        | some _ => buildDispathes r req api (routingScans (pos + pre.length)) 0 api.Nodes := by
  induction pre with
  | nil =>
    intro pos d
    simp only [List.nil_append, dispatchLoop, hapi, if_true, List.length_nil, Nat.add_zero]
    cases hb : buildDispathes r req api (routingScans pos) 0 api.Nodes with
    | none => rfl
    | some built => exact r.dispatchLoop_no_match req routingScans post (pos + 1) built hpost
  | cons a pre ih =>
    intro pos d
    have harith : pos + (a :: pre).length = pos + 1 + pre.length := by
      simp only [List.length_cons]; omega
    rw [harith]
    simp only [List.cons_append, dispatchLoop]
    by_cases ha : a.Matches req = true
    · simp only [ha, if_true]
      cases hb : buildDispathes r req a (routingScans pos) 0 a.Nodes with
      | none => rfl
      | some built => exact ih (pos + 1) built
    · simp only [ha]
      exact ih (pos + 1) d

/-- The outer loop of `dispatch` returns normally when the inner loop does so for every
matching API it visits. -/
theorem dispatchLoop_isSome (r : dispatcher) (req : Request)
    (routingScans : Nat → Nat → List Routing) (apis : List API) :
    ∀ (pos : Nat) (dispathes : List dispathNode),
      (∀ (k : Nat) (a : API), apis[k]? = some a → a.Matches req = true →
        (buildDispathes r req a (routingScans (pos + k)) 0 a.Nodes).isSome = true) →
      (dispatchLoop r req routingScans pos apis dispathes).isSome = true := by
  induction apis with
  | nil => intro pos d _; rfl
  | cons a rest ih =>
    intro pos d h
    have hrest : ∀ (k : Nat) (b : API), rest[k]? = some b → b.Matches req = true →
        (buildDispathes r req b (routingScans (pos + 1 + k)) 0 b.Nodes).isSome = true := by
      intro k b hk hb
      have := h (k + 1) b (by simpa using hk) hb
      have harith : pos + (k + 1) = pos + 1 + k := by omega
      rwa [harith] at this
    simp only [dispatchLoop]
    by_cases ha : a.Matches req = true
    · have h0 := h 0 a (by simp) ha
      simp only [Nat.add_zero] at h0
      obtain ⟨built, hbuilt⟩ := Option.isSome_iff_exists.mp h0
      simp only [ha, if_true, hbuilt]
      exact ih (pos + 1) built hrest
    · simp only [ha]
      exact ih (pos + 1) d hrest

/-- Method `dispatch` returns normally on every table, request and scan order. -/
theorem dispatch_isSome (r : dispatcher) (req : Request) (apiScan : List API)
    (routingScans : Nat → Nat → List Routing) :
    (r.dispatch req apiScan routingScans).isSome = true :=
  r.dispatchLoop_isSome req routingScans apiScan 0 []
    (fun k a _ _ => r.buildDispathes_isSome req a (routingScans (0 + k)) a.Nodes 0)

end dispatcher

namespace dispatcher

/-- The table after `doUnBind` when the server has a reverse-mapping entry: the cluster id
is deleted from the entry and the server from the cluster's members, in both modes. -/
theorem doUnBind_of_entry (r : dispatcher) (svr : serverRuntime) (cluster : Nat)
    (withLock : Bool) (binded : String → Option Nat)
    (hentry : r.mapping svr.meta.ID = some binded) :
    r.doUnBind svr cluster withLock =
      { r with
        mapping := goMapStore r.mapping svr.meta.ID
          (goMapDelete binded (r.clusterObjs cluster).meta.ID)
        clusterObjs := Function.update r.clusterObjs cluster
          ((r.clusterObjs cluster).doRemove svr.meta.ID) } := by
  unfold doUnBind
  rw [hentry]
  cases withLock <;> rfl

/-- The table after `doUnBind` when the server has no reverse-mapping entry: unchanged. -/
theorem doUnBind_of_no_entry (r : dispatcher) (svr : serverRuntime) (cluster : Nat)
    (withLock : Bool) (hentry : r.mapping svr.meta.ID = none) :
    r.doUnBind svr cluster withLock = r := by
  unfold doUnBind
  rw [hentry]

/-- After `doUnBind` the cluster id is not a key of the server's reverse-mapping entry. -/
theorem doUnBind_bound_self (r : dispatcher) (svr : serverRuntime) (cluster : Nat)
    (withLock : Bool) :
    (r.doUnBind svr cluster withLock).bound svr.meta.ID (r.clusterObjs cluster).meta.ID
      = none := by
  cases hentry : r.mapping svr.meta.ID with
  | none =>
    rw [r.doUnBind_of_no_entry svr cluster withLock hentry]
    simp [bound, hentry]
  | some binded =>
    rw [r.doUnBind_of_entry svr cluster withLock binded hentry]
    simp [bound, goMapStore, goMapDelete]

/-- Every reverse-mapping lookup other than (this server, this cluster id) is the same
after `doUnBind`. -/
theorem doUnBind_bound_other (r : dispatcher) (svr : serverRuntime) (cluster : Nat)
    (withLock : Bool) (s c : String)
    (h : s ≠ svr.meta.ID ∨ c ≠ (r.clusterObjs cluster).meta.ID) :
    (r.doUnBind svr cluster withLock).bound s c = r.bound s c := by
  cases hentry : r.mapping svr.meta.ID with
  | none => rw [r.doUnBind_of_no_entry svr cluster withLock hentry]
  | some binded =>
    rw [r.doUnBind_of_entry svr cluster withLock binded hentry]
    by_cases hs : s = svr.meta.ID
    · subst hs
      have hc : c ≠ (r.clusterObjs cluster).meta.ID := by
        rcases h with h | h
        · exact absurd rfl h
        · exact h
      simp [bound, goMapStore, goMapDelete, hentry, hc]
    · simp [bound, goMapStore, hs]

/-- The reverse-mapping entries of the other servers are untouched by `doUnBind`. -/
theorem doUnBind_mapping_other (r : dispatcher) (svr : serverRuntime) (cluster : Nat)
    (withLock : Bool) (s : String) (hs : s ≠ svr.meta.ID) :
    (r.doUnBind svr cluster withLock).mapping s = r.mapping s := by
  cases hentry : r.mapping svr.meta.ID with
  | none => rw [r.doUnBind_of_no_entry svr cluster withLock hentry]
  | some binded =>
    rw [r.doUnBind_of_entry svr cluster withLock binded hentry]
    simp [goMapStore, hs]

/-- The cluster objects after `doUnBind`: the other clusters are untouched, and the cluster
itself keeps its identity and loses at most the server among its members. -/
theorem doUnBind_clusterObjs (r : dispatcher) (svr : serverRuntime) (cluster : Nat)
    (withLock : Bool) :
    (∀ p, p ≠ cluster → (r.doUnBind svr cluster withLock).clusterObjs p = r.clusterObjs p) ∧
    ((r.doUnBind svr cluster withLock).clusterObjs cluster).meta = (r.clusterObjs cluster).meta ∧
    (∀ s, s ≠ svr.meta.ID →
      (s ∈ ((r.doUnBind svr cluster withLock).clusterObjs cluster).svrs ↔
        s ∈ (r.clusterObjs cluster).svrs)) ∧
    ((r.mapping svr.meta.ID).isSome = true →
      svr.meta.ID ∉ ((r.doUnBind svr cluster withLock).clusterObjs cluster).svrs) := by
  cases hentry : r.mapping svr.meta.ID with
  | none =>
    rw [r.doUnBind_of_no_entry svr cluster withLock hentry]
    simp
  | some binded =>
    rw [r.doUnBind_of_entry svr cluster withLock binded hentry]
    refine ⟨?_, ?_, ?_, ?_⟩
    · intro p hp
      simp [Function.update, hp]
    · simp [clusterRuntime.doRemove]
    · intro s hs
      simp [clusterRuntime.doRemove, hs]
    · intro _
      simp [clusterRuntime.doRemove]

end dispatcher

namespace dispatcher

/-- What the outer loop of `dispatch` returns is either what it started from or what the
inner loop built for a matching API of the scan. -/
theorem dispatchLoop_origin (r : dispatcher) (req : Request)
    (routingScans : Nat → Nat → List Routing) (apis : List API) :
    ∀ (pos : Nat) (dispathes nodes : List dispathNode),
      dispatchLoop r req routingScans pos apis dispathes = some nodes →
      nodes = dispathes ∨
      ∃ (k : Nat) (a : API), apis[k]? = some a ∧ a.Matches req = true ∧
        buildDispathes r req a (routingScans (pos + k)) 0 a.Nodes = some nodes := by
  induction apis with
  | nil =>
    intro pos d nodes h
    simp only [dispatchLoop, Option.some.injEq] at h
    exact Or.inl h.symm
  | cons a rest ih =>
    intro pos d nodes h
    simp only [dispatchLoop] at h
    by_cases ha : a.Matches req = true
    · simp only [ha, if_true] at h
      cases hb : buildDispathes r req a (routingScans pos) 0 a.Nodes with
      | none => rw [hb] at h; exact absurd h (by simp)
      | some built =>
        rw [hb] at h
        rcases ih (pos + 1) built nodes h with hsame | ⟨k, b, hk, hbm, hbuilt⟩
        · subst hsame
          exact Or.inr ⟨0, a, by simp, ha, by simpa using hb⟩
        · refine Or.inr ⟨k + 1, b, by simpa using hk, hbm, ?_⟩
          have harith : pos + (k + 1) = pos + 1 + k := by omega
          rw [harith]
          exact hbuilt
    · simp only [ha] at h
      rcases ih (pos + 1) d nodes h with hsame | ⟨k, b, hk, hbm, hbuilt⟩
      · exact Or.inl hsame
      · refine Or.inr ⟨k + 1, b, by simpa using hk, hbm, ?_⟩
        have harith : pos + (k + 1) = pos + 1 + k := by omega
        rw [harith]
        exact hbuilt

/-- The override loop in terms of the first matching override of its scan. -/
theorem selectClusterByRouting_find (r : dispatcher) (req : Request) (src : Option Nat)
    (scan : List Routing) (rt : Routing)
    (h : scan.find? (fun x => x.Matches req) = some rt) :
    r.selectClusterByRouting req src scan = r.clusters rt.Cluster := by
  unfold selectClusterByRouting
  induction scan with
  | nil => simp at h
  | cons a rest ih =>
    by_cases ha : a.Matches req = true
    · simp only [List.find?, ha, Option.some.injEq] at h
      subst h
      simp [selectClusterByRoutingLoop, ha]
    · have ha' : a.Matches req = false := by simpa using ha
      simp only [List.find?, ha'] at h
      simp only [selectClusterByRoutingLoop, ha']
      exact ih h

/-- A scan of a table in which some override matches has a first matching override. -/
theorem exists_find_of_perm (req : Request) (scan routings : List Routing)
    (hscan : scan.Perm routings) (hmatch : ∃ rt ∈ routings, rt.Matches req = true) :
    ∃ rt, scan.find? (fun x => x.Matches req) = some rt := by
  obtain ⟨rt, hrt, hm⟩ := hmatch
  have hmem : rt ∈ scan := hscan.mem_iff.mpr hrt
  cases hf : scan.find? (fun x => x.Matches req) with
  | some x => exact ⟨x, rfl⟩
  | none =>
    have := List.find?_eq_none.mp hf rt hmem
    simp [hm] at this

end dispatcher

namespace dispatcher

/-- On a scan split at its last matching API, `dispatch` returns what the inner loop builds
for that API. -/
theorem dispatch_of_last_split (r : dispatcher) (req : Request) (apiScan : List API)
    (routingScans : Nat → Nat → List Routing) (pre : List API) (api : API) (post : List API)
    (hl : apiScan = pre ++ api :: post) (hapi : api.Matches req = true)
    (hpost : ∀ a ∈ post, a.Matches req = false) :
    r.dispatch req apiScan routingScans
      = r.buildDispathes req api (routingScans pre.length) 0 api.Nodes := by
  have hpre : (r.dispatchLoop req routingScans 0 pre []).isSome = true :=
    r.dispatchLoop_isSome req routingScans pre 0 []
      (fun k a _ _ => r.buildDispathes_isSome req a (routingScans (0 + k)) a.Nodes 0)
  obtain ⟨d, hd⟩ := Option.isSome_iff_exists.mp hpre
  unfold dispatch
  rw [hl, r.dispatchLoop_last_match req routingScans api post hapi hpost pre 0 [], hd,
    Nat.zero_add]

/-- On a scan split at its last matching API, `dispatch` returns one Dispatch Node per Node
of that API, in order, each with the API, the Node and the server selected for it. -/
theorem dispatch_nodes_of_last_split (r : dispatcher) (req : Request) (apiScan : List API)
    (routingScans : Nat → Nat → List Routing) (pre : List API) (api : API) (post : List API)
    (hl : apiScan = pre ++ api :: post) (hapi : api.Matches req = true)
    (hpost : ∀ a ∈ post, a.Matches req = false) :
    ∃ nodes, r.dispatch req apiScan routingScans = some nodes ∧
      nodes.length = api.Nodes.length ∧
      ∀ (i : Nat) (node : Node), api.Nodes[i]? = some node →
        ∃ dest,
          r.selectServer req (r.selectClusterByRouting req (r.clusters node.ClusterName)
            (routingScans pre.length i)) = some dest ∧
          nodes[i]? = some { api := api, node := node, dest := dest } := by
  have hd := r.dispatch_of_last_split req apiScan routingScans pre api post hl hapi hpost
  obtain ⟨nodes, hnodes⟩ := Option.isSome_iff_exists.mp
    (r.buildDispathes_isSome req api (routingScans pre.length) api.Nodes 0)
  obtain ⟨hlen, hget⟩ :=
    r.buildDispathes_some req api (routingScans pre.length) api.Nodes 0 nodes hnodes
  refine ⟨nodes, by rw [hd, hnodes], hlen, ?_⟩
  intro i node hi
  obtain ⟨dest, hsel, hb⟩ := hget i node hi
  rw [Nat.zero_add] at hsel
  exact ⟨dest, hsel, hb⟩

end dispatcher

namespace dispatcher

/-- The traced override loop computes what the override loop computes, and its events are
map evaluations. -/
theorem selectClusterByRoutingLoopTraced_spec (r : dispatcher) (req : Request)
    (src : Option Nat) (scan : List Routing) :
    (r.selectClusterByRoutingLoopTraced req src scan).1
      = r.selectClusterByRoutingLoop req src scan ∧
    ∀ e ∈ (r.selectClusterByRoutingLoopTraced req src scan).2, e.isRead = true := by
  induction scan with
  | nil => exact ⟨rfl, by simp [selectClusterByRoutingLoopTraced]⟩
  | cons rt rest ih =>
    by_cases hrt : rt.Matches req = true
    · simp [selectClusterByRoutingLoopTraced, selectClusterByRoutingLoop, hrt,
        TableEvent.isRead]
    · simp only [selectClusterByRoutingLoopTraced, selectClusterByRoutingLoop, hrt]
      exact ih

/-- The traced `selectClusterByRouting` computes what `selectClusterByRouting` computes,
and its events are map evaluations. -/
theorem selectClusterByRoutingTraced_spec (r : dispatcher) (req : Request)
    (src : Option Nat) (scan : List Routing) :
    (r.selectClusterByRoutingTraced req src scan).1 = r.selectClusterByRouting req src scan ∧
    ∀ e ∈ (r.selectClusterByRoutingTraced req src scan).2, e.isRead = true := by
  obtain ⟨h1, h2⟩ := r.selectClusterByRoutingLoopTraced_spec req src scan
  refine ⟨h1, ?_⟩
  intro e he
  simp only [selectClusterByRoutingTraced, List.mem_cons] at he
  rcases he with rfl | he
  · rfl
  · exact h2 e he

/-- The traced `selectServer` computes what `selectServer` computes, and its events are map
evaluations. -/
theorem selectServerTraced_spec (r : dispatcher) (req : Request) (cluster : Option Nat) :
    (r.selectServerTraced req cluster).1 = r.selectServer req cluster ∧
    ∀ e ∈ (r.selectServerTraced req cluster).2, e.isRead = true := by
  unfold selectServerTraced doSelectServerTraced selectServer doSelectServer
  split <;> simp [TableEvent.isRead]

/-- The traced inner loop computes what the inner loop of `dispatch` computes, and its
events are map evaluations. -/
theorem buildDispathesTraced_spec (r : dispatcher) (req : Request) (api : API)
    (routingScans : Nat → List Routing) (nodes : List Node) :
    ∀ index : Nat,
      (r.buildDispathesTraced req api routingScans index nodes).1
        = r.buildDispathes req api routingScans index nodes ∧
      ∀ e ∈ (r.buildDispathesTraced req api routingScans index nodes).2,
        e.isRead = true := by
  induction nodes with
  | nil => intro index; exact ⟨rfl, by simp [buildDispathesTraced]⟩
  | cons n rest ih =>
    intro index
    obtain ⟨hr1, hr2⟩ :=
      r.selectClusterByRoutingTraced_spec req (r.clusters n.ClusterName) (routingScans index)
    obtain ⟨hs1, hs2⟩ := r.selectServerTraced_spec req
      (r.selectClusterByRoutingTraced req (r.clusters n.ClusterName) (routingScans index)).1
    obtain ⟨ht1, ht2⟩ := ih (index + 1)
    have hev : ∀ e ∈ TableEvent.read TableMap.clusters ::
        ((r.selectClusterByRoutingTraced req (r.clusters n.ClusterName)
            (routingScans index)).2 ++
          (r.selectServerTraced req (r.selectClusterByRoutingTraced req
            (r.clusters n.ClusterName) (routingScans index)).1).2), e.isRead = true := by
      intro e he
      simp only [List.mem_cons, List.mem_append] at he
      rcases he with rfl | he | he
      · rfl
      · exact hr2 e he
      · exact hs2 e he
    simp only [buildDispathesTraced, buildDispathes]
    rw [hr1] at hs1 hev ⊢
    rw [hs1]
    cases hsel : r.selectServer req (r.selectClusterByRouting req (r.clusters n.ClusterName)
        (routingScans index)) with
    | none => exact ⟨rfl, hev⟩
    | some dest =>
      simp only []
      rw [ht1]
      cases htail : r.buildDispathes req api routingScans (index + 1) rest with
      | none =>
        refine ⟨rfl, ?_⟩
        intro e he
        rcases List.mem_append.mp he with he | he
        · exact hev e he
        · exact ht2 e he
      | some tail =>
        refine ⟨rfl, ?_⟩
        intro e he
        rcases List.mem_append.mp he with he | he
        · exact hev e he
        · exact ht2 e he

/-- The traced outer loop computes what the outer loop of `dispatch` computes, and its
events are map evaluations. -/
theorem dispatchLoopTraced_spec (r : dispatcher) (req : Request)
    (routingScans : Nat → Nat → List Routing) (apis : List API) :
    ∀ (pos : Nat) (dispathes : List dispathNode),
      (r.dispatchLoopTraced req routingScans pos apis dispathes).1
        = r.dispatchLoop req routingScans pos apis dispathes ∧
      ∀ e ∈ (r.dispatchLoopTraced req routingScans pos apis dispathes).2,
        e.isRead = true := by
  induction apis with
  | nil => intro pos d; exact ⟨rfl, by simp [dispatchLoopTraced]⟩
  | cons a rest ih =>
    intro pos d
    by_cases ha : a.Matches req = true
    · obtain ⟨hb1, hb2⟩ := r.buildDispathesTraced_spec req a (routingScans pos) a.Nodes 0
      simp only [dispatchLoopTraced, dispatchLoop, ha, if_true]
      rw [hb1]
      cases hbuilt : r.buildDispathes req a (routingScans pos) 0 a.Nodes with
      | none => exact ⟨rfl, hb2⟩
      | some nodes =>
        obtain ⟨ht1, ht2⟩ := ih (pos + 1) nodes
        refine ⟨ht1, ?_⟩
        intro e he
        rcases List.mem_append.mp he with he | he
        · exact hb2 e he
        · exact ht2 e he
    · simp only [dispatchLoopTraced, dispatchLoop, ha]
      exact ih (pos + 1) d

end dispatcher

/-! ## Routing table: claims -/

/-- C11. `selectClusterByRouting`: for every request, default cluster `src` and scan order
of the routing overrides, the result is `src` if no override of the table matches the
request; otherwise the scan splits at its first matching override and the result is the
cluster registered under that override's `Cluster` name (nil if none is), whatever the
overrides after it are. -/
theorem selectClusterByRouting_first_match_wins (r : dispatcher) (req : Request)
    (src : Option Nat) (routingScan : List Routing) (hscan : routingScan.Perm r.routings) :
    ((∀ rt ∈ r.routings, rt.Matches req = false) →
      r.selectClusterByRouting req src routingScan = src) ∧
    ((∃ rt ∈ r.routings, rt.Matches req = true) →
      ∃ pre rt post, routingScan = pre ++ rt :: post ∧
        (∀ x ∈ pre, x.Matches req = false) ∧ rt.Matches req = true ∧
        r.selectClusterByRouting req src routingScan = r.clusters rt.Cluster) ∧
    (∀ pre rt post, routingScan = pre ++ rt :: post →
      (∀ x ∈ pre, x.Matches req = false) → rt.Matches req = true →
      r.selectClusterByRouting req src routingScan = r.clusters rt.Cluster) := by
  refine ⟨?_, ?_, ?_⟩
  · intro hnone
    exact r.selectClusterByRoutingLoop_none req src routingScan
      (fun rt hrt => hnone rt (hscan.mem_iff.mp hrt))
  · rintro ⟨rt, hrt, hm⟩
    obtain ⟨pre, x, post, hl, hpre, hx⟩ :=
      exists_first_split (fun rt => rt.Matches req) routingScan
        ⟨rt, hscan.mem_iff.mpr hrt, hm⟩
    refine ⟨pre, x, post, hl, hpre, hx, ?_⟩
    rw [hl]
    exact r.selectClusterByRoutingLoop_split req src pre x post hpre hx
  · intro pre rt post hl hpre hrt
    rw [hl]
    exact r.selectClusterByRoutingLoop_split req src pre rt post hpre hrt

/-- Witness of C11: with the overrides "header `X-Canary` to c2" and "everything to c1",
a request with the header is sent to c2 when the header override is visited first and to
c1 when it is visited last; the default (c1, then c2) is replaced in both cases. -/
theorem selectClusterByRouting_first_match_wins_witness :
    (scenarioTable [] [routingCanary, routingAllC1]).selectClusterByRouting canaryRequest
        (some 1) [routingCanary, routingAllC1] = some 2 ∧
    (scenarioTable [] [routingCanary, routingAllC1]).selectClusterByRouting canaryRequest
        (some 2) [routingAllC1, routingCanary] = some 1 :=
  ⟨(selectClusterByRouting_first_match_wins (scenarioTable [] [routingCanary, routingAllC1])
      canaryRequest (some 1) [routingCanary, routingAllC1] (List.Perm.refl _)).2.2
      [] routingCanary [routingAllC1] rfl (by simp) rfl,
   (selectClusterByRouting_first_match_wins (scenarioTable [] [routingCanary, routingAllC1])
      canaryRequest (some 2) [routingAllC1, routingCanary] (List.Perm.swap _ _ _)).2.2
      [] routingAllC1 [routingCanary] rfl (by simp) rfl⟩

/-- C12. `dispatch` builds one Dispatch Node per Node entry: for every request and table in
which exactly one API matches, and every scan order, `dispatch` returns a sequence of length
`len(api.Nodes)` whose `i`-th element holds that API, its `i`-th Node, and as `dest` the
server selected from `selectClusterByRouting` applied to the cluster named by that Node
(`pos` is the API's position in the scan, which fixes the override scans used).  When no API
matches, `dispatch` returns the empty sequence. -/
theorem dispatch_one_dispathNode_per_node (r : dispatcher) (req : Request)
    (apiScan : List API) (routingScans : Nat → Nat → List Routing)
    (hscan : apiScan.Perm r.apis) :
    (∀ api : API, r.apis.filter (fun a => a.Matches req) = [api] →
      ∃ pos, apiScan[pos]? = some api ∧
        ∃ nodes, r.dispatch req apiScan routingScans = some nodes ∧
          nodes.length = api.Nodes.length ∧
          ∀ (i : Nat) (node : Node), api.Nodes[i]? = some node →
            ∃ dest,
              r.selectServer req (r.selectClusterByRouting req
                (r.clusters node.ClusterName) (routingScans pos i)) = some dest ∧
              nodes[i]? = some { api := api, node := node, dest := dest }) ∧
    ((∀ a ∈ r.apis, a.Matches req = false) →
      r.dispatch req apiScan routingScans = some []) := by
  constructor
  · intro api hone
    have hfilter : apiScan.filter (fun a => a.Matches req) = [api] := by
      have hp := hscan.filter (fun a => a.Matches req)
      rw [hone] at hp
      exact List.perm_singleton.mp hp
    obtain ⟨pre, post, hl, _, hapi, hpost⟩ :=
      filter_singleton_split (fun a => a.Matches req) apiScan api hfilter
    have hpos : apiScan[pre.length]? = some api := by
      rw [hl, List.getElem?_append_right (Nat.le_refl _)]
      simp
    exact ⟨pre.length, hpos,
      r.dispatch_nodes_of_last_split req apiScan routingScans pre api post hl hapi hpost⟩
  · intro hnone
    exact r.dispatchLoop_no_match req routingScans apiScan 0 []
      (fun a ha => hnone a (hscan.mem_iff.mp ha))

/-- Witness of C12: one match-all API with a Node on c1 and one override that sends requests
with the header `X-Canary` to c2: with the header the single Dispatch Node resolves to the
server s2 of c2, without it to the server s1 of c1. -/
theorem dispatch_one_dispathNode_per_node_witness :
    (∃ (pos : Nat) (nodes : List dispathNode), [apiAll][pos]? = some apiAll ∧
      (scenarioTable [apiAll] [routingCanary]).dispatch canaryRequest [apiAll]
        (sameScan [routingCanary]) = some nodes ∧ nodes.length = apiAll.Nodes.length) ∧
    (scenarioTable [apiAll] [routingCanary]).dispatch canaryRequest [apiAll]
        (sameScan [routingCanary])
      = some [{ api := apiAll, node := nodeC1, dest := some serverS2 }] ∧
    (scenarioTable [apiAll] [routingCanary]).dispatch plainRequest [apiAll]
        (sameScan [routingCanary])
      = some [{ api := apiAll, node := nodeC1, dest := some serverS1 }] ∧
    serverS2.meta.ID ∈ clusterC2.svrs ∧ serverS1.meta.ID ∈ clusterC1.svrs := by
  obtain ⟨pos, hpos, nodes, hnodes, hlen, _⟩ :=
    (dispatch_one_dispathNode_per_node (scenarioTable [apiAll] [routingCanary]) canaryRequest
      [apiAll] (sameScan [routingCanary]) (List.Perm.refl _)).1 apiAll rfl
  exact ⟨⟨pos, nodes, hpos, hnodes, hlen⟩, rfl, rfl, by decide, by decide⟩

/-- C13. Unresolvable destinations degrade to no-route without panicking: `dispatch` returns
normally on every table, request and scan order; and in the sequence it returns for the
(last) matching API, the Dispatch Node of a Node has a nil `dest` whenever the Node names a
cluster that is not in the clusters map and no override matches, whenever the first matching
override names a cluster that is not in the clusters map, and whenever the address picked in
the selected cluster is not a key of the servers map. -/
theorem dispatch_unresolved_destination_is_nil (r : dispatcher) (req : Request)
    (apiScan : List API) (routingScans : Nat → Nat → List Routing) :
    (r.dispatch req apiScan routingScans).isSome = true ∧
    (∀ (pre : List API) (api : API) (post : List API), apiScan = pre ++ api :: post →
      api.Matches req = true → (∀ a ∈ post, a.Matches req = false) →
      ∃ nodes, r.dispatch req apiScan routingScans = some nodes ∧
        nodes.length = api.Nodes.length ∧
        ∀ (i : Nat) (node : Node), api.Nodes[i]? = some node →
          ∃ dest, nodes[i]? = some { api := api, node := node, dest := dest } ∧
            (r.clusters node.ClusterName = none →
              (∀ rt ∈ routingScans pre.length i, rt.Matches req = false) → dest = none) ∧
            (∀ rt, (routingScans pre.length i).find? (fun x => x.Matches req) = some rt →
              r.clusters rt.Cluster = none → dest = none) ∧
            (∀ p, r.selectClusterByRouting req (r.clusters node.ClusterName)
                (routingScans pre.length i) = some p →
              r.servers ((r.clusterObjs p).lb req (r.clusterObjs p).svrs) = none →
              dest = none)) := by
  refine ⟨r.dispatch_isSome req apiScan routingScans, ?_⟩
  intro pre api post hl hapi hpost
  obtain ⟨nodes, hnodes, hlen, hget⟩ :=
    r.dispatch_nodes_of_last_split req apiScan routingScans pre api post hl hapi hpost
  refine ⟨nodes, hnodes, hlen, ?_⟩
  intro i node hi
  obtain ⟨dest, hsel, hb⟩ := hget i node hi
  refine ⟨dest, hb, ?_, ?_, ?_⟩
  · intro hnil hnone
    have hsrc : r.selectClusterByRouting req (r.clusters node.ClusterName)
        (routingScans pre.length i) = none := by
      unfold dispatcher.selectClusterByRouting
      rw [r.selectClusterByRoutingLoop_none req _ _ hnone, hnil]
    rw [hsrc, r.selectServer_nil req] at hsel
    exact (Option.some.inj hsel).symm
  · intro rt hrt hnil
    rw [r.selectClusterByRouting_find req _ _ rt hrt, hnil, r.selectServer_nil req] at hsel
    exact (Option.some.inj hsel).symm
  · intro p hp hsvr
    rw [hp, r.selectServer_some req p, hsvr] at hsel
    exact (Option.some.inj hsel).symm

/-- Witness of C13: a Node that names the unregistered cluster c1, an override that names
the unregistered cluster c9, and a table without servers: in all three `dispatch` returns
one Dispatch Node, with a nil `dest`. -/
theorem dispatch_unresolved_destination_is_nil_witness :
    (∃ nodes dest, (noClusterTable [apiAll] []).dispatch plainRequest [apiAll] (sameScan [])
        = some nodes ∧
      nodes[0]? = some { api := apiAll, node := nodeC1, dest := dest } ∧ dest = none) ∧
    (scenarioTable [apiAll] [routingAllC9]).dispatch plainRequest [apiAll]
        (sameScan [routingAllC9])
      = some [{ api := apiAll, node := nodeC1, dest := none }] ∧
    (noServerTable [apiAll] []).dispatch plainRequest [apiAll] (sameScan [])
      = some [{ api := apiAll, node := nodeC1, dest := none }] := by
  obtain ⟨nodes, hnodes, _, hget⟩ :=
    (dispatch_unresolved_destination_is_nil (noClusterTable [apiAll] []) plainRequest [apiAll]
      (sameScan [])).2 [] apiAll [] rfl rfl (by simp)
  obtain ⟨dest, hdest, hnil, _, _⟩ := hget 0 nodeC1 rfl
  exact ⟨⟨nodes, dest, hnodes, hdest, hnil rfl (by simp [sameScan])⟩, rfl, rfl⟩

/-- C14. `doUnBind` postcondition: for every table state, server, cluster and mode, after
`doUnBind(server, cluster, withLock)` the cluster id is not a key of `mapping[server id]`,
the reverse-mapping entries of every other server and the other cluster ids of this server
are unchanged, the other cluster objects are untouched, and the lockstep relation "the
cluster's id is in `mapping[s]` iff `s` is a member of the cluster" is preserved, for this
cluster and for every cluster with another id.  The server id is not a member of the cluster
afterwards in every state in which the lockstep relation holds for the pair, and more
generally whenever the server has a reverse-mapping entry or is no member to begin with. -/
theorem doUnBind_postcondition (r : dispatcher) (svr : serverRuntime) (cluster : Nat)
    (withLock : Bool) :
    (lockstepAt r svr.meta.ID cluster →
      svr.meta.ID ∉ ((r.doUnBind svr cluster withLock).clusterObjs cluster).svrs) ∧
    ((r.mapping svr.meta.ID).isSome = true ∨ svr.meta.ID ∉ (r.clusterObjs cluster).svrs →
      svr.meta.ID ∉ ((r.doUnBind svr cluster withLock).clusterObjs cluster).svrs) ∧
    (r.doUnBind svr cluster withLock).bound svr.meta.ID (r.clusterObjs cluster).meta.ID
      = none ∧
    (∀ s, s ≠ svr.meta.ID → (r.doUnBind svr cluster withLock).mapping s = r.mapping s) ∧
    (∀ c, c ≠ (r.clusterObjs cluster).meta.ID →
      (r.doUnBind svr cluster withLock).bound svr.meta.ID c = r.bound svr.meta.ID c) ∧
    (∀ p, p ≠ cluster → (r.doUnBind svr cluster withLock).clusterObjs p = r.clusterObjs p) ∧
    (∀ s p, ((r.clusterObjs p).meta.ID ≠ (r.clusterObjs cluster).meta.ID ∨ p = cluster) →
      lockstepAt r s p → lockstepAt (r.doUnBind svr cluster withLock) s p) := by
  obtain ⟨hother, hmeta, hmem, hgone⟩ := r.doUnBind_clusterObjs svr cluster withLock
  have hnot : (r.mapping svr.meta.ID).isSome = true ∨
      svr.meta.ID ∉ (r.clusterObjs cluster).svrs →
      svr.meta.ID ∉ ((r.doUnBind svr cluster withLock).clusterObjs cluster).svrs := by
    intro h
    rcases h with h | h
    · exact hgone h
    · cases hentry : r.mapping svr.meta.ID with
      | none => rw [r.doUnBind_of_no_entry svr cluster withLock hentry]; exact h
      | some binded => exact hgone (by simp [hentry])
  have hpre : lockstepAt r svr.meta.ID cluster →
      (r.mapping svr.meta.ID).isSome = true ∨ svr.meta.ID ∉ (r.clusterObjs cluster).svrs := by
    intro hls
    unfold lockstepAt at hls
    by_cases hm : svr.meta.ID ∈ (r.clusterObjs cluster).svrs
    · left
      have hb := hls.mpr hm
      cases hentry : r.mapping svr.meta.ID with
      | none => simp [dispatcher.bound, hentry] at hb
      | some binded => rfl
    · exact Or.inr hm
  refine ⟨fun hls => hnot (hpre hls), hnot, r.doUnBind_bound_self svr cluster withLock,
    fun s hs => r.doUnBind_mapping_other svr cluster withLock s hs,
    fun c hc => r.doUnBind_bound_other svr cluster withLock _ c (Or.inr hc), hother, ?_⟩
  intro s p hp hls
  by_cases hpc : p = cluster
  · subst hpc
    by_cases hs : s = svr.meta.ID
    · subst hs
      have hgoneAfter := hnot (hpre hls)
      unfold lockstepAt
      rw [hmeta, r.doUnBind_bound_self svr p withLock]
      simp [hgoneAfter]
    · unfold lockstepAt at hls ⊢
      rw [hmeta, r.doUnBind_bound_other svr p withLock s _ (Or.inl hs), hmem s hs]
      exact hls
  · have hid : (r.clusterObjs p).meta.ID ≠ (r.clusterObjs cluster).meta.ID := by
      rcases hp with hp | hp
      · exact hp
      · exact absurd hp hpc
    unfold lockstepAt at hls ⊢
    rw [hother p hpc, r.doUnBind_bound_other svr cluster withLock s _ (Or.inr hid)]
    exact hls

/-- Witness of C14: in the scenario table server s1 has the entry {c1} and is a member of
c1 (lockstep holds for the pair); after `doUnBind` it is no member of c1, c1 is no key of
its entry, and lockstep still holds for the pair. -/
theorem doUnBind_postcondition_witness :
    lockstepAt (scenarioTable [] []) serverS1.meta.ID 1 ∧
    serverS1.meta.ID ∉ (((scenarioTable [] []).doUnBind serverS1 1 true).clusterObjs 1).svrs ∧
    ((scenarioTable [] []).doUnBind serverS1 1 true).bound serverS1.meta.ID
      ((scenarioTable [] []).clusterObjs 1).meta.ID = none ∧
    lockstepAt ((scenarioTable [] []).doUnBind serverS1 1 true) serverS1.meta.ID 1 :=
  ⟨by decide,
   (doUnBind_postcondition (scenarioTable [] []) serverS1 1 true).1 (by decide),
   (doUnBind_postcondition (scenarioTable [] []) serverS1 1 true).2.2.1,
   (doUnBind_postcondition (scenarioTable [] []) serverS1 1 true).2.2.2.2.2.2
      serverS1.meta.ID 1 (Or.inr rfl) (by decide)⟩

/-- C15. The two modes of `doUnBind` agree: with `withLock` true and false the resulting
reverse mapping, the resulting membership set of the cluster, and indeed the whole resulting
table are the same. -/
theorem doUnBind_modes_agree (r : dispatcher) (svr : serverRuntime) (cluster : Nat) :
    (r.doUnBind svr cluster true).mapping = (r.doUnBind svr cluster false).mapping ∧
    ((r.doUnBind svr cluster true).clusterObjs cluster).svrs
      = ((r.doUnBind svr cluster false).clusterObjs cluster).svrs ∧
    r.doUnBind svr cluster true = r.doUnBind svr cluster false := by
  have hall : r.doUnBind svr cluster true = r.doUnBind svr cluster false := by
    cases hentry : r.mapping svr.meta.ID with
    | none =>
      rw [r.doUnBind_of_no_entry svr cluster true hentry,
        r.doUnBind_of_no_entry svr cluster false hentry]
    | some binded =>
      rw [r.doUnBind_of_entry svr cluster true binded hentry,
        r.doUnBind_of_entry svr cluster false binded hentry]
  exact ⟨by rw [hall], by rw [hall], hall⟩

/-- C16. Bind/unbind round trip: for every table state, server and cluster not currently
bound to each other, binding the pair and then calling `doUnBind` on it, in either mode,
yields a reverse mapping equal to the one before the bind.  Where the server has a
reverse-mapping entry the bind does record the pair (the cluster under
`mapping[server id]`, the server among the cluster's members), and a server that was no
member of the cluster before leaves the membership set as it was, too. -/
theorem bind_doUnBind_round_trip (r : dispatcher) (svr : serverRuntime) (cluster : Nat)
    (withLock : Bool)
    (hfree : r.bound svr.meta.ID (r.clusterObjs cluster).meta.ID = none) :
    ((r.bind svr cluster).doUnBind svr cluster withLock).mapping = r.mapping ∧
    ((r.mapping svr.meta.ID).isSome = true →
      (r.bind svr cluster).bound svr.meta.ID (r.clusterObjs cluster).meta.ID = some cluster ∧
      svr.meta.ID ∈ ((r.bind svr cluster).clusterObjs cluster).svrs) ∧
    (svr.meta.ID ∉ (r.clusterObjs cluster).svrs →
      (((r.bind svr cluster).doUnBind svr cluster withLock).clusterObjs cluster).svrs
        = (r.clusterObjs cluster).svrs) := by
  cases hentry : r.mapping svr.meta.ID with
  | none =>
    have hbind : r.bind svr cluster = r := by
      unfold dispatcher.bind
      rw [hentry]
    rw [hbind, r.doUnBind_of_no_entry svr cluster withLock hentry]
    exact ⟨rfl, fun h => absurd h (by simp), fun _ => rfl⟩
  | some binded =>
    have hb : binded (r.clusterObjs cluster).meta.ID = none := by
      simpa [dispatcher.bound, hentry] using hfree
    have hbind : r.bind svr cluster =
        { r with
          mapping := goMapStore r.mapping svr.meta.ID
            (goMapStore binded (r.clusterObjs cluster).meta.ID cluster)
          clusterObjs := Function.update r.clusterObjs cluster
            ((r.clusterObjs cluster).add svr.meta.ID) } := by
      unfold dispatcher.bind
      rw [hentry]
    have hentry1 : (r.bind svr cluster).mapping svr.meta.ID
        = some (goMapStore binded (r.clusterObjs cluster).meta.ID cluster) := by
      rw [hbind]
      simp [goMapStore]
    have hid : ((r.bind svr cluster).clusterObjs cluster).meta.ID
        = (r.clusterObjs cluster).meta.ID := by
      rw [hbind]
      simp [clusterRuntime.add]
    refine ⟨?_, ?_, ?_⟩
    · rw [dispatcher.doUnBind_of_entry _ svr cluster withLock _ hentry1]
      simp only [hid]
      funext s
      by_cases hs : s = svr.meta.ID
      · subst hs
        simp only [goMapStore, if_true, hentry, Option.some.injEq]
        funext c
        by_cases hc : c = (r.clusterObjs cluster).meta.ID
        · subst hc
          simp [goMapDelete, hb]
        · simp [goMapDelete, goMapStore, hc]
      · rw [hbind]
        simp [goMapStore, hs]
    · intro _
      constructor
      · simp [dispatcher.bound, hentry1, goMapStore]
      · rw [hbind]
        simp [clusterRuntime.add]
    · intro hmem
      rw [dispatcher.doUnBind_of_entry _ svr cluster withLock _ hentry1, hbind]
      simp [clusterRuntime.add, clusterRuntime.doRemove, Finset.erase_insert hmem]

/-- Witness of C16: server s1 (entry {c1}) and cluster c2 are not bound to each other;
binding them records c2 under `mapping[s1]`, and unbinding them gives back the reverse
mapping of the scenario table. -/
theorem bind_doUnBind_round_trip_witness :
    ((scenarioTable [] []).bind serverS1 2).bound serverS1.meta.ID
      ((scenarioTable [] []).clusterObjs 2).meta.ID = some 2 ∧
    (((scenarioTable [] []).bind serverS1 2).doUnBind serverS1 2 false).mapping
      = (scenarioTable [] []).mapping :=
  ⟨((bind_doUnBind_round_trip (scenarioTable [] []) serverS1 2 false rfl).2.1 rfl).1,
   (bind_doUnBind_round_trip (scenarioTable [] []) serverS1 2 false rfl).1⟩

/-- C17. Reader locking discipline of `dispatch`, on one run: the traced `dispatch` returns
what `dispatch` returns, and the lock operations and map evaluations of the run are
`RLock`, then only evaluations of maps (of `apis` first), then `RUnlock`.  So the read lock
is taken before any map is read, every read of the match, route and select steps lies
between taking and releasing it, it is released exactly once, before the only return, and
no map is written and the write lock is never taken. -/
theorem dispatch_lock_discipline (r : dispatcher) (req : Request) (apiScan : List API)
    (routingScans : Nat → Nat → List Routing) :
    (r.dispatchTraced req apiScan routingScans).1 = r.dispatch req apiScan routingScans ∧
    (∃ reads : List TableEvent,
      (r.dispatchTraced req apiScan routingScans).2
        = TableEvent.RLock :: (reads ++ [TableEvent.RUnlock]) ∧
      reads.head? = some (TableEvent.read TableMap.apis) ∧
      ∀ e ∈ reads, e.isRead = true) ∧
    (r.dispatchTraced req apiScan routingScans).2.count TableEvent.RLock = 1 ∧
    (r.dispatchTraced req apiScan routingScans).2.count TableEvent.RUnlock = 1 ∧
    (∀ m, TableEvent.write m ∉ (r.dispatchTraced req apiScan routingScans).2) ∧
    TableEvent.Lock ∉ (r.dispatchTraced req apiScan routingScans).2 ∧
    TableEvent.Unlock ∉ (r.dispatchTraced req apiScan routingScans).2 := by
  obtain ⟨h1, h2⟩ := r.dispatchLoopTraced_spec req routingScans apiScan 0 []
  obtain ⟨nodes, hnodes⟩ :=
    Option.isSome_iff_exists.mp (r.dispatch_isSome req apiScan routingScans)
  have hloop : (r.dispatchLoopTraced req routingScans 0 apiScan []).1 = some nodes := by
    rw [h1]
    exact hnodes
  have htrace : (r.dispatchTraced req apiScan routingScans).2
      = TableEvent.RLock ::
          ((TableEvent.read TableMap.apis ::
            (r.dispatchLoopTraced req routingScans 0 apiScan []).2)
              ++ [TableEvent.RUnlock]) := by
    simp only [dispatcher.dispatchTraced, hloop, List.cons_append]
  have hreads : ∀ e ∈ TableEvent.read TableMap.apis ::
      (r.dispatchLoopTraced req routingScans 0 apiScan []).2, e.isRead = true := by
    intro e he
    rcases List.mem_cons.mp he with rfl | he
    · rfl
    · exact h2 e he
  have hnotmem : ∀ x : TableEvent, x.isRead = false →
      x ∉ TableEvent.read TableMap.apis ::
        (r.dispatchLoopTraced req routingScans 0 apiScan []).2 := by
    intro x hx hmem
    rw [hreads x hmem] at hx
    cases hx
  have hcount : ∀ x : TableEvent, x.isRead = false →
      (TableEvent.read TableMap.apis ::
        (r.dispatchLoopTraced req routingScans 0 apiScan []).2).count x = 0 :=
    fun x hx => List.count_eq_zero.mpr (hnotmem x hx)
  have hnot : ∀ x : TableEvent, x.isRead = false → x ≠ TableEvent.RLock →
      x ≠ TableEvent.RUnlock → x ∉ (r.dispatchTraced req apiScan routingScans).2 := by
    intro x hx hne1 hne2 hm
    rw [htrace] at hm
    rcases List.mem_cons.mp hm with h | h
    · exact hne1 h
    · rcases List.mem_append.mp h with h | h
      · exact hnotmem x hx h
      · exact hne2 (List.mem_singleton.mp h)
  refine ⟨?_, ⟨_, htrace, rfl, hreads⟩, ?_, ?_, ?_, ?_, ?_⟩
  · simp only [dispatcher.dispatchTraced, hloop]
    exact hnodes.symm
  · rw [htrace, List.count_cons, List.count_append, hcount TableEvent.RLock rfl]
    simp
  · rw [htrace, List.count_cons, List.count_append, hcount TableEvent.RUnlock rfl]
    simp
  · intro m
    exact hnot (TableEvent.write m) rfl (by intro h; cases h) (by intro h; cases h)
  · exact hnot TableEvent.Lock rfl (by intro h; cases h) (by intro h; cases h)
  · exact hnot TableEvent.Unlock rfl (by intro h; cases h) (by intro h; cases h)

/-- Witness of C17: the run of `dispatch` for a request with the header `X-Canary` on the
table with one match-all API (one Node on c1) and the header override to c2: read lock,
`apis`, `clusters` (the Node's cluster), `routings`, `clusters` (the override's cluster),
`servers`, read unlock; and its lock operations are one `RLock` and one `RUnlock`. -/
theorem dispatch_lock_discipline_witness :
    (scenarioTable [apiAll] [routingCanary]).dispatchTraced canaryRequest [apiAll]
        (sameScan [routingCanary])
      = (some [{ api := apiAll, node := nodeC1, dest := some serverS2 }],
          [TableEvent.RLock, TableEvent.read TableMap.apis, TableEvent.read TableMap.clusters,
            TableEvent.read TableMap.routings, TableEvent.read TableMap.clusters,
            TableEvent.read TableMap.servers, TableEvent.RUnlock]) ∧
    ((scenarioTable [apiAll] [routingCanary]).dispatchTraced canaryRequest [apiAll]
        (sameScan [routingCanary])).2.count TableEvent.RLock = 1 ∧
    ((scenarioTable [apiAll] [routingCanary]).dispatchTraced canaryRequest [apiAll]
        (sameScan [routingCanary])).2.count TableEvent.RUnlock = 1 :=
  ⟨rfl,
   (dispatch_lock_discipline (scenarioTable [apiAll] [routingCanary]) canaryRequest [apiAll]
      (sameScan [routingCanary])).2.2.1,
   (dispatch_lock_discipline (scenarioTable [apiAll] [routingCanary]) canaryRequest [apiAll]
      (sameScan [routingCanary])).2.2.2.1⟩

/-- Registration with `AddRecentCount` tracks the pair it is given and keeps the pairs
tracked before. -/
theorem mem_AddRecentCount (tracked : List (String × Int)) (key : String) (window : Int) :
    (key, window) ∈ AddRecentCount tracked key window ∧
    ∀ x ∈ tracked, x ∈ AddRecentCount tracked key window := by
  unfold AddRecentCount
  split_ifs with h
  · exact ⟨h, fun x hx => hx⟩
  · exact ⟨by simp, fun x hx => by simp [hx]⟩

/-- C18. Half→Open statistics read the Open→Close window: for a context with a policy and
two analyzer states that agree on the success and total counts of the (server,
`OpenToClose`) window, `getSucceedRate` returns the same value and `Post` returns normally
with the same result and the same resulting status, whatever the two analyzers answer for
any other window, the `HalfToOpen` window included; and `addAnalysis` does register the
`HalfToOpen` window next to the `OpenToClose` window. -/
theorem half_to_open_reads_open_to_close_window (c : Context) (cb : CircuitBreaker)
    (a1 a2 : Analysis) (hcb : c.GetCircuitBreaker = some cb)
    (hS : a1.GetRecentlyRequestSuccessedCount c.GetProxyServerAddr cb.OpenToClose
      = a2.GetRecentlyRequestSuccessedCount c.GetProxyServerAddr cb.OpenToClose)
    (hT : a1.GetRecentlyRequestCount c.GetProxyServerAddr cb.OpenToClose
      = a2.GetRecentlyRequestCount c.GetProxyServerAddr cb.OpenToClose) :
    getSucceedRate { c with analysis := a1 } = getSucceedRate { c with analysis := a2 } ∧
    (Post { c with analysis := a1 }).map (fun out => (out.1, out.2.circuit))
      = (Post { c with analysis := a2 }).map (fun out => (out.1, out.2.circuit)) ∧
    (Post { c with analysis := a1 }).isSome = true ∧
    (∀ (r : dispatcher) (svr : serverRuntime), svr.meta.CircuitBreaker = some cb →
      (svr.meta.ID, cb.HalfToOpen) ∈ (r.addAnalysis svr).analysiser ∧
      (svr.meta.ID, cb.OpenToClose) ∈ (r.addAnalysis svr).analysiser) := by
  have hcb1 : ({ c with analysis := a1 } : Context).GetCircuitBreaker = some cb := hcb
  have hcb2 : ({ c with analysis := a2 } : Context).GetCircuitBreaker = some cb := hcb
  have hrate : getSucceedRate { c with analysis := a1 }
      = getSucceedRate { c with analysis := a2 } := by
    have hS' : a1.GetRecentlyRequestSuccessedCount c.proxyServerAddr cb.OpenToClose
        = a2.GetRecentlyRequestSuccessedCount c.proxyServerAddr cb.OpenToClose := hS
    have hT' : a1.GetRecentlyRequestCount c.proxyServerAddr cb.OpenToClose
        = a2.GetRecentlyRequestCount c.proxyServerAddr cb.OpenToClose := hT
    simp only [getSucceedRate, hcb1, hcb2, Context.GetAnalysis, Context.GetProxyServerAddr,
      hS', hT']
  obtain ⟨rate, hr1⟩ :=
    Option.isSome_iff_exists.mp (getSucceedRate_isSome { c with analysis := a1 } cb hcb1)
  have hr2 : getSucceedRate { c with analysis := a2 } = some rate := by rw [← hrate, hr1]
  refine ⟨hrate, ?_, ?_, ?_⟩
  · by_cases hH : c.circuit = Circuit.Half
    · have hH1 : ({ c with analysis := a1 } : Context).IsCircuitHalf = true := by
        simp [Context.IsCircuitHalf, hH]
      have hH2 : ({ c with analysis := a2 } : Context).IsCircuitHalf = true := by
        simp [Context.IsCircuitHalf, hH]
      simp only [Post, hcb1, hcb2, hH1, hH2, hr1, hr2, if_true]
      by_cases hge : rate ≥ cb.HalfToOpenRate
      · simp only [if_pos hge]; rfl
      · simp only [if_neg hge]; rfl
    · have hH1 : ({ c with analysis := a1 } : Context).IsCircuitHalf = false := by
        simp [Context.IsCircuitHalf, hH]
      have hH2 : ({ c with analysis := a2 } : Context).IsCircuitHalf = false := by
        simp [Context.IsCircuitHalf, hH]
      simp only [Post, hcb1, hcb2, hH1, hH2]
      rfl
  · by_cases hH : c.circuit = Circuit.Half
    · have hH1 : ({ c with analysis := a1 } : Context).IsCircuitHalf = true := by
        simp [Context.IsCircuitHalf, hH]
      simp only [Post, hcb1, hH1, hr1, if_true]
      by_cases hge : rate ≥ cb.HalfToOpenRate
      · simp only [if_pos hge]; rfl
      · simp only [if_neg hge]; rfl
    · have hH1 : ({ c with analysis := a1 } : Context).IsCircuitHalf = false := by
        simp [Context.IsCircuitHalf, hH]
      simp only [Post, hcb1, hH1]
      rfl
  · intro r svr hsvr
    simp only [dispatcher.addAnalysis, hsvr]
    exact ⟨(mem_AddRecentCount _ _ _).1,
      (mem_AddRecentCount _ _ _).2 _ (mem_AddRecentCount _ _ _).1⟩

/-- Witness of C18: two analyzers report 8 successes out of 10 for the `OpenToClose` window
(10s); for every other window, the `HalfToOpen` window (5s) included, one reports 10
failures out of 10 and the other 10 successes out of 10.  The success rate is 80 under both,
and `Post` promotes the Half server under both. -/
theorem half_to_open_reads_open_to_close_window_witness :
    getSucceedRate { scenarioContext Circuit.Half 0 0 with
        analysis := windowAnalysis scenarioPolicy.OpenToClose (2, 8, 10) (10, 0, 10) }
      = getSucceedRate { scenarioContext Circuit.Half 0 0 with
        analysis := windowAnalysis scenarioPolicy.OpenToClose (2, 8, 10) (0, 10, 10) } ∧
    getSucceedRate { scenarioContext Circuit.Half 0 0 with
        analysis := windowAnalysis scenarioPolicy.OpenToClose (2, 8, 10) (10, 0, 10) }
      = some 80 ∧
    (Post { scenarioContext Circuit.Half 0 0 with
        analysis := windowAnalysis scenarioPolicy.OpenToClose (2, 8, 10) (10, 0, 10) }).map
          (fun out => out.2.circuit) = some Circuit.Open :=
  ⟨(half_to_open_reads_open_to_close_window (scenarioContext Circuit.Half 0 0) scenarioPolicy
      (windowAnalysis scenarioPolicy.OpenToClose (2, 8, 10) (10, 0, 10))
      (windowAnalysis scenarioPolicy.OpenToClose (2, 8, 10) (0, 10, 10)) rfl rfl rfl).1,
   rfl, rfl⟩

/-- C19. API precedence in `dispatch` is last-match-wins in scan order: for every request
and every scan order of the APIs in which at least one API matches, the scan splits at its
last matching API; whatever `dispatch` returns is exactly what the inner loop builds from
that API, and `dispatch` does return it whenever the inner loop returns normally for every
matching API of the scan (earlier matches are built and then overwritten, there is no early
exit).  Consequently there is a table with two matching APIs for which two scan orders give
different results. -/
theorem dispatch_last_match_wins :
    (∀ (r : dispatcher) (req : Request) (apiScan : List API)
        (routingScans : Nat → Nat → List Routing),
      apiScan.Perm r.apis → (∃ a ∈ r.apis, a.Matches req = true) →
      ∃ pre api post, apiScan = pre ++ api :: post ∧ api.Matches req = true ∧
        (∀ a ∈ post, a.Matches req = false) ∧
        (∀ nodes, r.dispatch req apiScan routingScans = some nodes →
          r.buildDispathes req api (routingScans pre.length) 0 api.Nodes = some nodes) ∧
        ((∀ (k : Nat) (a : API), apiScan[k]? = some a → a.Matches req = true →
            (r.buildDispathes req a (routingScans k) 0 a.Nodes).isSome = true) →
          (r.dispatch req apiScan routingScans).isSome = true ∧
          r.dispatch req apiScan routingScans
            = r.buildDispathes req api (routingScans pre.length) 0 api.Nodes)) ∧
    (∃ (r : dispatcher) (req : Request) (scan1 scan2 : List API)
        (routingScans : Nat → Nat → List Routing),
      scan1.Perm r.apis ∧ scan2.Perm r.apis ∧ r.apis.length = 2 ∧
      (∀ a ∈ r.apis, a.Matches req = true) ∧
      (r.dispatch req scan1 routingScans).isSome = true ∧
      (r.dispatch req scan2 routingScans).isSome = true ∧
      r.dispatch req scan1 routingScans ≠ r.dispatch req scan2 routingScans) := by
  constructor
  · intro r req apiScan routingScans hscan hmatch
    obtain ⟨a, ha, hm⟩ := hmatch
    obtain ⟨pre, api, post, hl, hapi, hpost⟩ :=
      exists_last_split (fun a => a.Matches req) apiScan ⟨a, hscan.mem_iff.mpr ha, hm⟩
    have hsplit : r.dispatch req apiScan routingScans =
        match r.dispatchLoop req routingScans 0 pre [] with
        | none => none
        | some _ => r.buildDispathes req api (routingScans pre.length) 0 api.Nodes := by
      unfold dispatcher.dispatch
      rw [hl, r.dispatchLoop_last_match req routingScans api post hapi hpost pre 0 [],
        Nat.zero_add]
    refine ⟨pre, api, post, hl, hapi, hpost, ?_, ?_⟩
    · intro nodes hnodes
      rw [hsplit] at hnodes
      cases hp : r.dispatchLoop req routingScans 0 pre [] with
      | none => rw [hp] at hnodes; exact absurd hnodes (by simp)
      | some d => rw [hp] at hnodes; exact hnodes
    · intro hall
      have hpre : (r.dispatchLoop req routingScans 0 pre []).isSome = true := by
        apply r.dispatchLoop_isSome req routingScans pre 0 []
        intro k b hk hb
        rw [Nat.zero_add]
        apply hall k b _ hb
        have hklt : k < pre.length := (List.getElem?_eq_some.mp hk).1
        rw [hl, List.getElem?_append_left hklt]
        exact hk
      obtain ⟨d, hd⟩ := Option.isSome_iff_exists.mp hpre
      have heq : r.dispatch req apiScan routingScans
          = r.buildDispathes req api (routingScans pre.length) 0 api.Nodes := by
        rw [hsplit, hd]
      refine ⟨?_, heq⟩
      rw [heq]
      apply hall pre.length api _ hapi
      rw [hl, List.getElem?_append_right (Nat.le_refl _)]
      simp
  · refine ⟨scenarioTable [apiAll, apiAllC2] [], plainRequest, [apiAll, apiAllC2],
      [apiAllC2, apiAll], sameScan [], List.Perm.refl _, List.Perm.swap _ _ _, rfl, ?_,
      rfl, rfl, ?_⟩
    · intro a ha
      have hmem : a ∈ [apiAll, apiAllC2] := ha
      simp only [List.mem_cons, List.mem_singleton, List.not_mem_nil, or_false] at hmem
      rcases hmem with rfl | rfl <;> rfl
    · intro h
      have h1 : (scenarioTable [apiAll, apiAllC2] []).dispatch plainRequest [apiAll, apiAllC2]
          (sameScan []) = some [{ api := apiAllC2, node := nodeC2, dest := some serverS2 }] :=
        rfl
      have h2 : (scenarioTable [apiAll, apiAllC2] []).dispatch plainRequest [apiAllC2, apiAll]
          (sameScan []) = some [{ api := apiAll, node := nodeC1, dest := some serverS1 }] :=
        rfl
      rw [h1, h2] at h
      have hnode := congrArg (Option.map (List.map (fun dn => dn.node))) h
      simp only [Option.map_some', List.map_cons, List.map_nil, Option.some.injEq] at hnode
      exact absurd hnode (by decide)

/-- Witness of C19: two match-all APIs, one with a Node on c1 and one with a Node on c2;
visited in the order (c2-API, c1-API) the result is the Dispatch Node of the c1-API, the
last one visited. -/
theorem dispatch_last_match_wins_witness :
    ∃ pre api post, [apiAllC2, apiAll] = pre ++ api :: post ∧
      api.Matches plainRequest = true ∧ (∀ a ∈ post, a.Matches plainRequest = false) ∧
      (scenarioTable [apiAll, apiAllC2] []).dispatch plainRequest [apiAllC2, apiAll]
          (sameScan [])
        = (scenarioTable [apiAll, apiAllC2] []).buildDispathes plainRequest api
            (sameScan [] pre.length) 0 api.Nodes ∧
      (scenarioTable [apiAll, apiAllC2] []).dispatch plainRequest [apiAllC2, apiAll]
          (sameScan [])
        = some [{ api := apiAll, node := nodeC1, dest := some serverS1 }] := by
  obtain ⟨pre, api, post, hl, hapi, hpost, _, htotal⟩ :=
    dispatch_last_match_wins.1 (scenarioTable [apiAll, apiAllC2] []) plainRequest
      [apiAllC2, apiAll] (sameScan []) (List.Perm.swap _ _ _) ⟨apiAll, by simp [scenarioTable], rfl⟩
  refine ⟨pre, api, post, hl, hapi, hpost, (htotal ?_).2, rfl⟩
  intro k a hk _
  have hmem : a ∈ [apiAllC2, apiAll] := List.getElem?_mem hk
  simp only [List.mem_cons, List.mem_singleton, List.not_mem_nil, or_false] at hmem
  rcases hmem with rfl | rfl <;> rfl

/-- C20, as amended. A matching routing override replaces every Node's own cluster: when
some override of the table matches the request, every override loop has a first matching
override in its scan and returns the cluster registered under that override's name whatever
the default `src` (the Node's own cluster) is; in the sequence `dispatch` returns for the
(last) matching API, at position `pre.length` of the scan, the Dispatch Node of the `i`-th
Node has its `dest` selected against the cluster named by the first matching override of the
scan made for that very Node, `routingScans pre.length i`; and when all override scans have
the same first matching override `rt`, every Dispatch Node is resolved against the one
cluster named by `rt`. -/
theorem override_replaces_node_cluster (r : dispatcher) (req : Request) (apiScan : List API)
    (routingScans : Nat → Nat → List Routing)
    (hperm : ∀ pos i, (routingScans pos i).Perm r.routings)
    (hmatch : ∃ rt ∈ r.routings, rt.Matches req = true) :
    (∀ pos i, ∃ rt, (routingScans pos i).find? (fun x => x.Matches req) = some rt ∧
      ∀ src, r.selectClusterByRouting req src (routingScans pos i) = r.clusters rt.Cluster) ∧
    (∀ (pre : List API) (api : API) (post : List API), apiScan = pre ++ api :: post →
      api.Matches req = true → (∀ a ∈ post, a.Matches req = false) →
      ∃ nodes, r.dispatch req apiScan routingScans = some nodes ∧
        nodes.length = api.Nodes.length ∧
        ∀ (i : Nat) (node : Node), api.Nodes[i]? = some node →
          ∃ rt dest,
            (routingScans pre.length i).find? (fun x => x.Matches req) = some rt ∧
            r.selectServer req (r.clusters rt.Cluster) = some dest ∧
            nodes[i]? = some { api := api, node := node, dest := dest }) ∧
    (∀ rt, (∀ pos i, (routingScans pos i).find? (fun x => x.Matches req) = some rt) →
      ∀ nodes, r.dispatch req apiScan routingScans = some nodes → ∀ dn ∈ nodes,
        r.selectServer req (r.clusters rt.Cluster) = some dn.dest) := by
  have hfirst : ∀ pos i, ∃ rt,
      (routingScans pos i).find? (fun x => x.Matches req) = some rt ∧
      ∀ src, r.selectClusterByRouting req src (routingScans pos i) = r.clusters rt.Cluster := by
    intro pos i
    obtain ⟨rt, hrt⟩ :=
      dispatcher.exists_find_of_perm req (routingScans pos i) r.routings (hperm pos i) hmatch
    exact ⟨rt, hrt, fun src => r.selectClusterByRouting_find req src _ rt hrt⟩
  refine ⟨hfirst, ?_, ?_⟩
  · intro pre api post hl hapi hpost
    obtain ⟨nodes, hnodes, hlen, hget⟩ :=
      r.dispatch_nodes_of_last_split req apiScan routingScans pre api post hl hapi hpost
    refine ⟨nodes, hnodes, hlen, ?_⟩
    intro i node hi
    obtain ⟨dest, hsel, hb⟩ := hget i node hi
    obtain ⟨rt, hrt, hsrc⟩ := hfirst pre.length i
    rw [hsrc] at hsel
    exact ⟨rt, dest, hrt, hsel, hb⟩
  · intro rt hall nodes hd dn hdn
    rcases r.dispatchLoop_origin req routingScans apiScan 0 [] nodes hd with
      hnil | ⟨k, a, _, _, hbuilt⟩
    · subst hnil
      cases hdn
    · obtain ⟨hlen, hget⟩ :=
        r.buildDispathes_some req a (routingScans (0 + k)) a.Nodes 0 nodes hbuilt
      obtain ⟨i, hi, hidn⟩ := List.getElem_of_mem hdn
      have hi' : i < a.Nodes.length := by rw [← hlen]; exact hi
      obtain ⟨dest, hsel, hb⟩ := hget i (a.Nodes[i]) (List.getElem?_eq_getElem hi')
      rw [r.selectClusterByRouting_find req _ _ rt (hall (0 + k) (0 + i))] at hsel
      rw [List.getElem?_eq_getElem hi, hidn, Option.some.injEq] at hb
      rw [hsel, hb]

/-- Witness of C20: an API that fans out to c1 and c2 and the override "header `X-Canary`
to c2": for a request with the header `dispatch` returns two Dispatch Nodes, and both are
resolved against c2. -/
theorem override_replaces_node_cluster_witness :
    (∃ nodes, (scenarioTable [apiFanOut] [routingCanary]).dispatch canaryRequest [apiFanOut]
        (sameScan [routingCanary]) = some nodes ∧ nodes.length = apiFanOut.Nodes.length) ∧
    (scenarioTable [apiFanOut] [routingCanary]).dispatch canaryRequest [apiFanOut]
        (sameScan [routingCanary])
      = some [{ api := apiFanOut, node := nodeC1, dest := some serverS2 },
              { api := apiFanOut, node := nodeC2, dest := some serverS2 }] ∧
    ∀ dn ∈ [({ api := apiFanOut, node := nodeC1, dest := some serverS2 } : dispathNode),
            { api := apiFanOut, node := nodeC2, dest := some serverS2 }],
      (scenarioTable [apiFanOut] [routingCanary]).selectServer canaryRequest
        ((scenarioTable [apiFanOut] [routingCanary]).clusters routingCanary.Cluster)
          = some dn.dest := by
  have h := override_replaces_node_cluster (scenarioTable [apiFanOut] [routingCanary])
    canaryRequest [apiFanOut] (sameScan [routingCanary]) (fun _ _ => List.Perm.refl _)
    ⟨routingCanary, by simp [scenarioTable], rfl⟩
  obtain ⟨nodes, hnodes, hlen, _⟩ := h.2.1 [] apiFanOut [] rfl rfl (by simp)
  exact ⟨⟨nodes, hnodes, hlen⟩, rfl, h.2.2 routingCanary (fun _ _ => rfl) _ rfl⟩

/-- Counterexample to C20 as stated: two overrides, to c1 and to c2, both match; the
override loop run for Node 0 visits the c2-override first and the loop run for Node 1 visits
the c1-override first.  The two Dispatch Nodes of the one API are resolved against different
clusters (servers s2 and s1): no single cluster accounts for both destinations. -/
theorem override_replaces_node_cluster_counterexample :
    (∀ pos i, (twoScans [routingAllC2, routingAllC1] [routingAllC1, routingAllC2] pos i).Perm
      (scenarioTable [apiFanOut] [routingAllC1, routingAllC2]).routings) ∧
    (∃ rt ∈ (scenarioTable [apiFanOut] [routingAllC1, routingAllC2]).routings,
      rt.Matches plainRequest = true) ∧
    (scenarioTable [apiFanOut] [routingAllC1, routingAllC2]).dispatch plainRequest [apiFanOut]
        (twoScans [routingAllC2, routingAllC1] [routingAllC1, routingAllC2])
      = some [{ api := apiFanOut, node := nodeC1, dest := some serverS2 },
              { api := apiFanOut, node := nodeC2, dest := some serverS1 }] ∧
    ¬ ∃ target : Option Nat,
      ∀ dn ∈ [({ api := apiFanOut, node := nodeC1, dest := some serverS2 } : dispathNode),
              { api := apiFanOut, node := nodeC2, dest := some serverS1 }],
        (scenarioTable [apiFanOut] [routingAllC1, routingAllC2]).selectServer plainRequest
          target = some dn.dest := by
  refine ⟨?_, ⟨routingAllC1, by simp [scenarioTable], rfl⟩, rfl, ?_⟩
  · intro pos i
    unfold twoScans
    split_ifs
    · exact List.Perm.swap _ _ _
    · exact List.Perm.refl _
  · rintro ⟨target, h⟩
    have h1 := h _ (List.mem_cons_self _ _)
    have h2 := h _ (List.mem_cons_of_mem _ (List.mem_cons_self _ _))
    rw [h1] at h2
    simp only [Option.some.injEq] at h2
    exact absurd h2 (by decide)

end Proxy
